import Mathlib

/-!
Verification of the Memory Scramble board (`src/PR_lab_3/MIT-6.102-ps4/src/board.ts`)
against its specification. The TypeScript class is embedded shallowly: the
mutable `Board` becomes an explicit `BoardState`, each method becomes a state
function, and thrown errors become explicit `err` results. `flipCard`'s single
suspension point (rule 1-D) is modelled by a `wait` result that records the
enqueued waiter; sequential traces are sequences of calls that run to a normal
return.
-/

set_option linter.unusedVariables false

namespace MemoryScramble

/-! JavaScript string primitives used by `board.ts`, modelled over `List Char`. -/

/-- The character set stripped by JavaScript `String.prototype.trim`, matched by
the regular-expression class `\s`, and skipped by `Number` string conversion
(ECMAScript WhiteSpace plus LineTerminator). -/
def jsWhitespace (c : Char) : Bool :=
  c == ' ' || c == '\t' || c == '\n' || c == '\r' || c == '\x0b' || c == '\x0c' ||
  c == '\u00A0' || c == '\u1680' || (0x2000 ≤ c.toNat && c.toNat ≤ 0x200A) ||
  c == '\u2028' || c == '\u2029' || c == '\u202F' || c == '\u205F' || c == '\u3000' ||
  c == '\uFEFF'

/-- JavaScript `trim`: drop `jsWhitespace` characters from both ends. -/
def jsTrimList (l : List Char) : List Char :=
  ((l.dropWhile jsWhitespace).reverse.dropWhile jsWhitespace).reverse

/-- JavaScript `String.prototype.split` with a one-character separator: split on
every occurrence, keeping empty pieces. -/
def splitOnChar (sep : Char) : List Char → List (List Char)
  | [] => [[]]
  | c :: rest =>
    let r := splitOnChar sep rest
    if c == sep then [] :: r
    else
      match r with
      | [] => [[c]]
      | piece :: more => (c :: piece) :: more

/-- Numeric value of a list of decimal digit characters, most significant first. -/
def natOfDigits (l : List Char) : Nat :=
  l.foldl (fun a c => a * 10 + (c.toNat - 48)) 0

/-- An exact, unnormalised fraction with value `num / den`. Every fraction the
number parser builds has a positive power-of-ten (or radix-power) denominator,
and `board.ts` only compares converted numbers with `0` and with an exact
integer, so cross-multiplication decides those comparisons exactly. -/
structure Frac where
  num : Int
  den : Nat
deriving DecidableEq, Repr

/-- Scale a fraction by `10 ^ k` for an integer exponent `k`. -/
def Frac.scalePow10 (f : Frac) (k : Int) : Frac :=
  if 0 ≤ k then { num := f.num * (10 : Int) ^ k.toNat, den := f.den }
  else { num := f.num, den := f.den * 10 ^ (-k).toNat }

/-- Result of JavaScript `Number(string)`. The finite values are exact
rationals; IEEE-754 rounding of enormous literals is not modelled. -/
inductive JsNum where
  | nan
  | inf (neg : Bool)
  | val (f : Frac)
deriving DecidableEq, Repr

/-- Exponent part of a decimal literal: an optional sign followed by at least
one digit. -/
def parseExpPart (l : List Char) : Option Int :=
  match l with
  | '+' :: r => if !r.isEmpty && r.all Char.isDigit then some (natOfDigits r) else none
  | '-' :: r => if !r.isEmpty && r.all Char.isDigit then some (-(natOfDigits r : Int)) else none
  | r => if !r.isEmpty && r.all Char.isDigit then some (natOfDigits r) else none

/-- Unsigned ECMAScript decimal literal (exclusive of `Infinity`):
`Digits [. Digits] [Exponent]` or `. Digits [Exponent]`. -/
def parseUnsignedDec (l : List Char) : Option Frac :=
  let ip := l.takeWhile Char.isDigit
  let r1 := l.dropWhile Char.isDigit
  match r1 with
  | [] => if ip.isEmpty then none else some { num := natOfDigits ip, den := 1 }
  | '.' :: r2 =>
    let fp := r2.takeWhile Char.isDigit
    let r3 := r2.dropWhile Char.isDigit
    if ip.isEmpty && fp.isEmpty then none
    else
      let base : Frac :=
        { num := natOfDigits ip * 10 ^ fp.length + natOfDigits fp, den := 10 ^ fp.length }
      match r3 with
      | [] => some base
      | e :: r4 =>
        if e == 'e' || e == 'E' then (parseExpPart r4).map (fun k => base.scalePow10 k)
        else none
  | e :: r4 =>
    if (e == 'e' || e == 'E') && !ip.isEmpty then
      (parseExpPart r4).map (fun k =>
        Frac.scalePow10 { num := natOfDigits ip, den := 1 } k)
    else none

/-- Digit value of a character in the given radix, when valid. -/
def radixDigit (radix : Nat) (c : Char) : Option Nat :=
  let v :=
    if '0' ≤ c && c ≤ '9' then some (c.toNat - 48)
    else if 'a' ≤ c && c ≤ 'f' then some (c.toNat - 87)
    else if 'A' ≤ c && c ≤ 'F' then some (c.toNat - 55)
    else none
  match v with
  | some d => if d < radix then some d else none
  | none => none

/-- A nonempty string of digits in the given radix (`0x`/`0o`/`0b` bodies). -/
def parseRadix (radix : Nat) (l : List Char) : JsNum :=
  if l.isEmpty then .nan
  else
    match l.mapM (radixDigit radix) with
    | some ds => .val { num := (ds.foldl (fun a d => a * radix + d) 0 : Nat), den := 1 }
    | none => .nan

/-- Unsigned body of a numeric string: `Infinity` or a decimal literal. -/
def jsUnsigned (l : List Char) : JsNum :=
  if l = "Infinity".data then .inf false
  else
    match parseUnsignedDec l with
    | some f => .val f
    | none => .nan

/-- ECMAScript `StringToNumber`, i.e. `Number(string)`. -/
def jsNumberList (l0 : List Char) : JsNum :=
  match jsTrimList l0 with
  | [] => .val { num := 0, den := 1 }
  | c :: r =>
    if c == '+' then jsUnsigned r
    else if c == '-' then
      match jsUnsigned r with
      | .inf _ => .inf true
      | .val f => .val { num := -f.num, den := f.den }
      | .nan => .nan
    else if c == '0' then
      match r with
      | c2 :: r2 =>
        if c2 == 'x' || c2 == 'X' then parseRadix 16 r2
        else if c2 == 'o' || c2 == 'O' then parseRadix 8 r2
        else if c2 == 'b' || c2 == 'B' then parseRadix 2 r2
        else jsUnsigned (c :: r)
      | [] => jsUnsigned (c :: r)
    else jsUnsigned (c :: r)

/-- `isNaN(x)` for a converted number. -/
def JsNum.isNaN : JsNum → Bool
  | .nan => true
  | _ => false

/-- `x <= 0` for a converted number (`NaN` comparisons are `false`). -/
def JsNum.nonPos : JsNum → Bool
  | .nan => false
  | .inf neg => neg
  | .val f => decide (f.num ≤ 0)

/-- `x * y === n` for converted numbers against an exact natural number. -/
def jsMulEqNat (x y : JsNum) (n : Nat) : Bool :=
  match x, y with
  | .val a, .val b => decide (a.num * b.num = (n : Int) * ((a.den : Int) * (b.den : Int)))
  | _, _ => false

/-- The positive-integer value of a converted number, when it has one. -/
def JsNum.toPosNat? : JsNum → Option Nat
  | .val f =>
    if 0 < f.den && 0 < f.num && (f.den : Int) ∣ f.num then
      some (f.num / (f.den : Int)).toNat
    else none
  | _ => none

/-! The Memory Scramble data model, translated from `src/board.ts`. -/

/-- A card on the board (`class Card`): immutable content, mutable face state. -/
structure Card where
  content : String
  faceUp : Bool
deriving DecidableEq, Repr

/-- `Card.matches`: two cards match when their contents are equal. -/
def Card.matches (a other : Card) : Bool :=
  a.content == other.content

/-- A board coordinate (`class Position`); `row` and `col` are non-negative by
that class's representation invariant, hence naturals. -/
structure Position where
  row : Nat
  col : Nat
deriving DecidableEq, Repr

/-- Per-player state (`class PlayerState`). -/
structure PlayerState where
  playerId : String
  controlled : List Position
  toCleanUp : List Position
deriving DecidableEq, Repr

/-- The full board state (`class Board`). `cards` holds `none` for removed
cards. `playerStates` is the insertion-ordered player map. `waitQueues`
records, one entry per waiter, the position each suspended `flipCard` call is
queued on (the source stores a `Deferred` per waiter; only membership and
multiplicity are observable to the claims). -/
structure BoardState where
  rows : Nat
  cols : Nat
  cards : List (List (Option Card))
  playerStates : List PlayerState
  waitQueues : List Position
deriving DecidableEq, Repr

/-- Read `this.cards[p.row]?.[p.col]` (out-of-range reads give `undefined`). -/
def getCard (b : BoardState) (p : Position) : Option Card :=
  (b.cards.getD p.row []).getD p.col none

/-- Write `this.cards[p.row][p.col] = oc` (all writes in the source are
in-range). -/
def setCard (b : BoardState) (p : Position) (oc : Option Card) : BoardState :=
  { b with cards := b.cards.set p.row ((b.cards.getD p.row []).set p.col oc) }

/-- A freshly constructed `PlayerState` for `pid`. -/
def freshPlayer (pid : String) : PlayerState :=
  { playerId := pid, controlled := [], toCleanUp := [] }

/-- `this.playerStates.get(playerId)`. -/
def getPlayer? (b : BoardState) (pid : String) : Option PlayerState :=
  b.playerStates.find? (fun s => s.playerId == pid)

/-- The caller's state, defaulting to a fresh one (used after `ensurePlayer`). -/
def getSt (b : BoardState) (pid : String) : PlayerState :=
  (getPlayer? b pid).getD (freshPlayer pid)

/-- The source's get-or-create idiom: `let state = this.playerStates.get(id);
if (!state) { state = new PlayerState(id); this.playerStates.set(id, state); }`. -/
def ensurePlayer (b : BoardState) (pid : String) : BoardState :=
  match getPlayer? b pid with
  | some _ => b
  | none => { b with playerStates := b.playerStates ++ [freshPlayer pid] }

/-- Apply `f` to the entry of `playerStates` whose key is `pid`. -/
def setPlayer (b : BoardState) (pid : String) (f : PlayerState → PlayerState) : BoardState :=
  { b with playerStates := b.playerStates.map (fun s => if s.playerId = pid then f s else s) }

/-- `Board.isCardControlled`: whether any player's `controlled` holds `p`. -/
def isCardControlled (b : BoardState) (p : Position) : Bool :=
  b.playerStates.any (fun s => s.controlled.any (fun q => decide (q = p)))

/-- `Board.notifyWaiters`: resolve and drop every waiter queued at `p`. -/
def notifyWaiters (b : BoardState) (p : Position) : BoardState :=
  { b with waitQueues := b.waitQueues.filter (fun q => decide (q ≠ p)) }

/-- `Board.waitForCard`: enqueue the caller as a waiter on `p`. -/
def waitForCard (b : BoardState) (p : Position) : BoardState :=
  { b with waitQueues := b.waitQueues ++ [p] }

/-- Whether the cell at `p` holds a face-up card. -/
def faceUpAt (b : BoardState) (p : Position) : Bool :=
  match getCard b p with
  | some c => c.faceUp
  | none => false

/-- The content of the card at `p`, when one is present. -/
def contentAt (b : BoardState) (p : Position) : Option String :=
  (getCard b p).map (fun c => c.content)

/-- Whether the matched-removal rule 3-A would fire for `s`'s pending pair. -/
def pendingMatched (b : BoardState) (s : PlayerState) : Bool :=
  match s.toCleanUp with
  | [p1, p2] =>
    match getCard b p1, getCard b p2 with
    | some c1, some c2 => c1.matches c2
    | _, _ => false
  | _ => false

/-- `Board.checkRep` as a boolean: `true` iff every `assert` in it passes. -/
def checkRepB (b : BoardState) : Bool :=
  decide (0 < b.rows) && decide (0 < b.cols) &&
  decide (b.cards.length = b.rows) &&
  b.cards.all (fun row => decide (row.length = b.cols)) &&
  b.playerStates.all (fun s =>
    decide (s.controlled.length ≤ 2) &&
    s.controlled.all (fun p =>
      decide (p.row < b.rows) && decide (p.col < b.cols) && faceUpAt b p)) &&
  decide ((b.playerStates.map (fun s => s.controlled)).flatten.Nodup)

/-- Outcome of one `flipCard` call in the sequential model: a normal return, a
suspension inside `waitForCard` (rule 1-D; the enqueued state is recorded, and
the recursive retry only happens on a wake-up, which no sequential trace
delivers), or a thrown error carrying the state at the throw point. -/
inductive FlipResult where
  | ok (b : BoardState)
  | wait (b : BoardState)
  | err (msg : String) (b : BoardState)
deriving DecidableEq, Repr

/-- The board state carried by a `FlipResult`. -/
def FlipResult.state : FlipResult → BoardState
  | .ok b => b
  | .wait b => b
  | .err _ b => b

/-- The source's `this.checkRep(); return;` idiom: `checkRep` throws when an
assertion fails. -/
def checkedReturn (b : BoardState) : FlipResult :=
  if checkRepB b then .ok b else .err "checkRep assertion failed" b

/-- `Board.flipCardUp`: throws when the card is already face-up. -/
def flipCardUp (b : BoardState) (card : Card) (p : Position) : Except String BoardState :=
  if card.faceUp then .error "Bug: attempted to flip a face-up card face up again"
  else .ok (setCard b p (some { card with faceUp := true }))

/-- `Board.flipCardDown`: throws when the card is already face-down, or
controlled by some player. -/
def flipCardDown (b : BoardState) (card : Card) (p : Position) : Except String BoardState :=
  if !card.faceUp then .error "Bug: attempted to flip a face-down card face down again"
  else if isCardControlled b p then .error "Bug: attempted to flip down a controlled card"
  else .ok (setCard b p (some { card with faceUp := false }))

/-- Rule 3-B for one position: flip the card down when it is present, still
face-up and controlled by nobody (reads are live, as through the source's
object references). -/
def cleanupFlipDown (b : BoardState) (p : Position) : Except String BoardState :=
  match getCard b p with
  | some c => if c.faceUp && !isCardControlled b p then flipCardDown b c p else .ok b
  | none => .ok b

/-- The cleanup prologue of `flipCard` for `toCleanUp = [p1, p2]`: rule 3-A
(matched removal, waking waiters at both positions) or rule 3-B (mismatched
flip-down), then clear the caller's `toCleanUp` and `controlled` and wake
waiters at both positions once more. -/
def runCleanup (b : BoardState) (pid : String) (p1 p2 : Position) : Except String BoardState :=
  match
    (match getCard b p1, getCard b p2 with
     | some firstCard, some secondCard =>
       if firstCard.matches secondCard then
         Except.ok (notifyWaiters (notifyWaiters (setCard (setCard b p1 none) p2 none) p1) p2)
       else
         match cleanupFlipDown b p1 with
         | .error m => .error m
         | .ok ba => cleanupFlipDown ba p2
     | _, _ =>
       match cleanupFlipDown b p1 with
       | .error m => .error m
       | .ok ba => cleanupFlipDown ba p2)
  with
  | .error m => .error m
  | .ok b1 =>
    .ok (notifyWaiters (notifyWaiters
      (setPlayer b1 pid (fun s => { s with toCleanUp := [], controlled := [] })) p1) p2)

/-- Phase A of `flipCard` — the "first card" rules 1-A to 1-D — processed
against the current (possibly post-cleanup) state. -/
def phaseA (b : BoardState) (position : Position) (pid : String) : FlipResult :=
  match getCard b position with
  | none => .ok b
  | some currentCard =>
    if !currentCard.faceUp then
      match flipCardUp b currentCard position with
      | .error m => .err m b
      | .ok b1 =>
        checkedReturn (setPlayer b1 pid (fun s => { s with controlled := s.controlled ++ [position] }))
    else if !isCardControlled b position then
      checkedReturn (setPlayer b pid (fun s => { s with controlled := s.controlled ++ [position] }))
    else
      .wait (waitForCard b position)

/-- Phase B of `flipCard` — the "second card" rules 2-A to 2-E. -/
def phaseB (b : BoardState) (position : Position) (pid : String) : FlipResult :=
  match (getSt b pid).controlled with
  | [firstPos] =>
    match getCard b firstPos with
    | none => .err "assertion failed: controlled card missing" b
    | some firstCard =>
      match getCard b position with
      | none =>
        checkedReturn (notifyWaiters (setPlayer b pid (fun s => { s with controlled := [] })) firstPos)
      | some card =>
        if isCardControlled b position then
          checkedReturn (notifyWaiters (setPlayer b pid (fun s => { s with controlled := [] })) firstPos)
        else
          match (if !card.faceUp then flipCardUp b card position else .ok b) with
          | .error m => .err m b
          | .ok b1 =>
            if card.matches firstCard then
              checkedReturn (setPlayer b1 pid (fun s =>
                { s with controlled := s.controlled ++ [position], toCleanUp := [firstPos, position] }))
            else
              checkedReturn (notifyWaiters (notifyWaiters
                (setPlayer b1 pid (fun s => { s with controlled := [], toCleanUp := [firstPos, position] }))
                firstPos) position)
  | _ => .err "assertion failed: phase B requires exactly one controlled card" b

/-- `Board.flipCard(position, playerId, retryingAfterWait)`. -/
def flipCard (b : BoardState) (position : Position) (playerId : String)
    (retryingAfterWait : Bool) : FlipResult :=
  if b.rows ≤ position.row ∨ b.cols ≤ position.col then .err "Invalid position" b
  else
    let b0 := ensurePlayer b playerId
    let st := getSt b0 playerId
    if st.toCleanUp.length = 2 ∨ st.controlled.length = 0 then
      if !retryingAfterWait && st.toCleanUp.length == 2 then
        match st.toCleanUp with
        | [p1, p2] =>
          match runCleanup b0 playerId p1 p2 with
          | .error m => .err m b0
          | .ok b1 => phaseA b1 position playerId
        | _ => .err "assertion failed: toCleanUp positions missing" b0
      else phaseA b0 position playerId
    else if st.controlled.length = 1 then
      phaseB b0 position playerId
    else
      checkedReturn b0

/-- The text line `getBoardState` produces for the cell at `(r, c)`, for a
viewer whose state is `st`. -/
def cellStateLine (b : BoardState) (st : PlayerState) (r c : Nat) : String :=
  match getCard b { row := r, col := c } with
  | none => "none"
  | some card =>
    if !card.faceUp then "down"
    else if st.controlled.any (fun q => decide (q = { row := r, col := c })) then
      "my " ++ card.content
    else
      "up " ++ card.content

/-- `Board.getBoardState(playerId)`: the rendered view together with the state
after the call (a slot for an unknown player is allocated lazily). -/
def getBoardState (b : BoardState) (pid : String) : String × BoardState :=
  let b1 := ensurePlayer b pid
  let st := getSt b1 pid
  let lines := (Nat.repr b1.rows ++ "x" ++ Nat.repr b1.cols) ::
    ((List.range b1.rows).map (fun r => (List.range b1.cols).map (fun c =>
      cellStateLine b1 st r c))).flatten
  (String.intercalate "\n" lines, b1)

/-- `Board.parseFromFile`, applied to the file's contents (reading the file is
I/O outside the model). The source splits on the regular expression `\r?\n`
and then trims each line; splitting on `'\n'` followed by the same trim yields
the same lines, since a dangling `'\r'` is trimmed. The two assertion failures
reachable during construction — a `Card` whose content contains whitespace,
and the `Board.checkRep` dimension assertions, which fire exactly when a
dimension converts to a non-integral number (the `for` loops then build a grid
whose dimensions cannot equal `rows`/`cols`) — are reported as errors, as
thrown assertions are in the source. -/
def parseFromFile (data : String) : Except String BoardState :=
  let strArray := ((splitOnChar '\n' data.data).map (fun l => String.mk (jsTrimList l))).filter
    (fun l => decide (0 < l.length))
  if strArray.length < 2 then .error "Invalid game board file"
  else
    let firstLine := strArray.getD 0 ""
    let dimensions := splitOnChar 'x' firstLine.data
    if dimensions.length ≠ 2 then .error "Invalid board dimensions format"
    else
      let rowsN := jsNumberList (dimensions.getD 0 [])
      let colsN := jsNumberList (dimensions.getD 1 [])
      if rowsN.isNaN || colsN.isNaN || rowsN.nonPos || colsN.nonPos then
        .error "Invalid board dimensions: must be positive numbers"
      else
        let cardsArray := strArray.drop 1
        if !jsMulEqNat rowsN colsN cardsArray.length then
          .error "wrong card count"
        else
          match rowsN.toPosNat?, colsN.toPosNat? with
          | some rows, some cols =>
            if cardsArray.any (fun l => l.data.any jsWhitespace) then
              .error "Card content must not contain whitespace"
            else
              .ok { rows := rows, cols := cols,
                    cards := (List.range rows).map (fun r => (List.range cols).map (fun c =>
                      let cardContent := cardsArray.getD (r * cols + c) ""
                      if cardContent = "" then none
                      else some { content := cardContent, faceUp := false })),
                    playerStates := [], waitQueues := [] }
          | _, _ => .error "Board checkRep assertion failed: non-integral dimensions"

/-- Modelled from the spec: the bulk `transform(f)` operation of §4.6 is not in
`src/` (it lives in the repository's `commands.ts`, which is absent); per the
spec it rewrites every present cell's content `x` to `f x`, computing `f` once
per distinct content, while preserving `faceUp` and every player's `controlled`
and `toCleanUp` membership. Run sequentially, that is a content map over the
present cells. -/
def transform (b : BoardState) (f : String → String) : BoardState :=
  { b with cards := b.cards.map (fun row => row.map (fun cell =>
      cell.map (fun c => { c with content := f c.content }))) }

/-- From the spec's wire-format description (§6), independently of
`getBoardState`: the classification of one cell. -/
def viewSpecLine (b : BoardState) (ctl : List Position) (p : Position) : String :=
  match getCard b p with
  | none => "none"
  | some card =>
    if card.faceUp then
      if ctl.any (fun q => decide (q = p)) then "my " ++ card.content
      else "up " ++ card.content
    else "down"

/-- The spec's `view(actorId)` string: line 1 is `R"x"C`; lines 2 to `R·C + 1`
classify the cells in row-major order, indexed by flat cell number. -/
def viewSpec (b : BoardState) (pid : String) : String :=
  String.intercalate "\n" ((Nat.repr b.rows ++ "x" ++ Nat.repr b.cols) ::
    (List.range (b.rows * b.cols)).map (fun k =>
      viewSpecLine b (getSt b pid).controlled { row := k / b.cols, col := k % b.cols }))

/-- A nonempty token made of decimal digits. -/
def isDigitToken (l : List Char) : Bool :=
  !l.isEmpty && l.all Char.isDigit

/-- The success condition claimed by the spec for board files (§6), written
from the claim's words for comparison with `parseFromFile`: after trimming and
dropping blank lines, the first line is `R"x"C` with `R`, `C` positive decimal
integers, and exactly `R × C` further lines follow, each non-empty and free of
whitespace. -/
def specParseGood (data : String) : Bool :=
  let processed := ((splitOnChar '\n' data.data).map (fun l => String.mk (jsTrimList l))).filter
    (fun l => decide (0 < l.length))
  match processed with
  | [] => false
  | d :: rest =>
    match splitOnChar 'x' d.data with
    | [a, c] =>
      isDigitToken a && isDigitToken c &&
      decide (0 < natOfDigits a) && decide (0 < natOfDigits c) &&
      decide (rest.length = natOfDigits a * natOfDigits c) &&
      rest.all (fun l => !l.isEmpty && l.data.all (fun ch => !jsWhitespace ch))
    | _ => false

/-- One externally invokable operation of the sequential model. -/
inductive BoardOp where
  | flip (position : Position) (pid : String) (retryingAfterWait : Bool)
  | view (pid : String)
deriving DecidableEq, Repr

/-- The state after running one operation, whatever its outcome. -/
def applyOp (b : BoardState) : BoardOp → BoardState
  | .flip position pid retrying => (flipCard b position pid retrying).state
  | .view pid => (getBoardState b pid).snd

/-- The state after a finite sequence of operations. -/
def runOps (b : BoardState) (ops : List BoardOp) : BoardState :=
  ops.foldl applyOp b

/-- One operation that completes normally: a `flipCard` call (necessarily not a
wake-up resumption, in a sequential trace) that returns `.ok`, or a
`getBoardState` call. -/
inductive OkStep : BoardState → BoardState → Prop where
  | flip (position : Position) (pid : String) (b b' : BoardState) :
      flipCard b position pid false = .ok b' → OkStep b b'
  | view (pid : String) (b : BoardState) : OkStep b (getBoardState b pid).snd

/-- States reachable from `b` through normally completing operations. -/
def ReachableOk (b b' : BoardState) : Prop :=
  Relation.ReflTransGen OkStep b b'

/-- Well-formedness of the grid: positive dimensions and a rectangular `cards`
array, as established by the `Board` constructor. -/
def WfGrid (b : BoardState) : Prop :=
  0 < b.rows ∧ 0 < b.cols ∧ b.cards.length = b.rows ∧
  ∀ row ∈ b.cards, row.length = b.cols

/-- Pairwise separation of players: distinct ids and disjoint `controlled`
lists — "no position is controlled by two different players". -/
def PlayersDisj (l : List PlayerState) : Prop :=
  l.Pairwise (fun s1 s2 => s1.playerId ≠ s2.playerId ∧ ∀ p ∈ s1.controlled, p ∉ s2.controlled)

/-- The invariant the board maintains between completed operations: a
well-formed grid, separated players, and for each player — at most two
controlled positions, all distinct, in bounds, present and face-up; a pending
cleanup list of length 0 or 2; and, when the pending pair is present and
matched (it then came from rule 2-D), `controlled` still equal to it. -/
def Inv (b : BoardState) : Prop :=
  WfGrid b ∧ PlayersDisj b.playerStates ∧
  ∀ s ∈ b.playerStates,
    s.controlled.length ≤ 2 ∧ s.controlled.Nodup ∧
    (∀ p ∈ s.controlled, p.row < b.rows ∧ p.col < b.cols ∧ faceUpAt b p = true) ∧
    (s.toCleanUp.length = 0 ∨ s.toCleanUp.length = 2) ∧
    (pendingMatched b s = true → s.controlled = s.toCleanUp)

/-- Whether a `flipCard` outcome is a thrown error. -/
def FlipResult.isErr : FlipResult → Bool
  | .err _ _ => true
  | _ => false

instance decidableWfGrid (b : BoardState) : Decidable (WfGrid b) := by
  unfold WfGrid
  infer_instance

instance decidablePlayersDisj (l : List PlayerState) : Decidable (PlayersDisj l) := by
  unfold PlayersDisj
  infer_instance

instance decidableInv (b : BoardState) : Decidable (Inv b) := by
  unfold Inv
  infer_instance

/-- A concrete two-cell board used to exercise the theorems: the parse of
`"1x2\na\na"`. -/
def sampleBoard : BoardState :=
  { rows := 1, cols := 2,
    cards := [[some { content := "a", faceUp := false }, some { content := "a", faceUp := false }]],
    playerStates := [], waitQueues := [] }

/-- `sampleBoard` after player `"p"` flips `(0, 0)` (rule 1-B). -/
def sampleBoardFlipped : BoardState :=
  { rows := 1, cols := 2,
    cards := [[some { content := "a", faceUp := true }, some { content := "a", faceUp := false }]],
    playerStates := [{ playerId := "p", controlled := [{ row := 0, col := 0 }], toCleanUp := [] }],
    waitQueues := [] }


/-- A board whose player `"p"` holds a matched pending pair, used to exercise
the cleanup-prologue theorem. -/
def cleanupBoard : BoardState :=
  { rows := 1, cols := 3,
    cards := [[some { content := "a", faceUp := true },
               some { content := "a", faceUp := true },
               some { content := "b", faceUp := false }]],
    playerStates := [{ playerId := "p",
                       controlled := [{ row := 0, col := 0 }, { row := 0, col := 1 }],
                       toCleanUp := [{ row := 0, col := 0 }, { row := 0, col := 1 }] }],
    waitQueues := [{ row := 0, col := 0 }, { row := 0, col := 1 }, { row := 0, col := 2 }] }

/-- A board whose player `"p"` controls one face-up card, with a matching
face-down card next to it, used to exercise the second-flip theorem. -/
def secondFlipBoard : BoardState :=
  { rows := 1, cols := 3,
    cards := [[some { content := "a", faceUp := true },
               some { content := "a", faceUp := false },
               some { content := "b", faceUp := false }]],
    playerStates := [{ playerId := "p", controlled := [{ row := 0, col := 0 }],
                       toCleanUp := [] }],
    waitQueues := [] }

/-- A board whose player `"p"` controls one card and re-selects it as the
second flip, used to exercise the contended-second-flip theorem. -/
def contendedBoard : BoardState :=
  { rows := 1, cols := 2,
    cards := [[some { content := "a", faceUp := true },
               some { content := "a", faceUp := false }]],
    playerStates := [{ playerId := "p", controlled := [{ row := 0, col := 0 }],
                       toCleanUp := [] }],
    waitQueues := [{ row := 0, col := 0 }, { row := 0, col := 1 }] }

/-! Basic lemmas about the state operations. -/

@[simp] theorem setCard_rows (b : BoardState) (p : Position) (oc : Option Card) :
    (setCard b p oc).rows = b.rows := rfl

@[simp] theorem setCard_cols (b : BoardState) (p : Position) (oc : Option Card) :
    (setCard b p oc).cols = b.cols := rfl

@[simp] theorem setCard_playerStates (b : BoardState) (p : Position) (oc : Option Card) :
    (setCard b p oc).playerStates = b.playerStates := rfl

@[simp] theorem setCard_waitQueues (b : BoardState) (p : Position) (oc : Option Card) :
    (setCard b p oc).waitQueues = b.waitQueues := rfl

@[simp] theorem notifyWaiters_rows (b : BoardState) (p : Position) :
    (notifyWaiters b p).rows = b.rows := rfl

@[simp] theorem notifyWaiters_cols (b : BoardState) (p : Position) :
    (notifyWaiters b p).cols = b.cols := rfl

@[simp] theorem notifyWaiters_cards (b : BoardState) (p : Position) :
    (notifyWaiters b p).cards = b.cards := rfl

@[simp] theorem notifyWaiters_playerStates (b : BoardState) (p : Position) :
    (notifyWaiters b p).playerStates = b.playerStates := rfl

@[simp] theorem waitForCard_rows (b : BoardState) (p : Position) :
    (waitForCard b p).rows = b.rows := rfl

@[simp] theorem waitForCard_cols (b : BoardState) (p : Position) :
    (waitForCard b p).cols = b.cols := rfl

@[simp] theorem waitForCard_cards (b : BoardState) (p : Position) :
    (waitForCard b p).cards = b.cards := rfl

@[simp] theorem waitForCard_playerStates (b : BoardState) (p : Position) :
    (waitForCard b p).playerStates = b.playerStates := rfl

@[simp] theorem setPlayer_rows (b : BoardState) (pid : String) (f : PlayerState → PlayerState) :
    (setPlayer b pid f).rows = b.rows := rfl

@[simp] theorem setPlayer_cols (b : BoardState) (pid : String) (f : PlayerState → PlayerState) :
    (setPlayer b pid f).cols = b.cols := rfl

@[simp] theorem setPlayer_cards (b : BoardState) (pid : String) (f : PlayerState → PlayerState) :
    (setPlayer b pid f).cards = b.cards := rfl

@[simp] theorem setPlayer_waitQueues (b : BoardState) (pid : String) (f : PlayerState → PlayerState) :
    (setPlayer b pid f).waitQueues = b.waitQueues := rfl

@[simp] theorem setPlayer_playerStates (b : BoardState) (pid : String) (f : PlayerState → PlayerState) :
    (setPlayer b pid f).playerStates =
      b.playerStates.map (fun s => if s.playerId = pid then f s else s) := rfl

theorem ensurePlayer_rows (b : BoardState) (pid : String) :
    (ensurePlayer b pid).rows = b.rows := by
  unfold ensurePlayer; cases getPlayer? b pid <;> rfl

theorem ensurePlayer_cols (b : BoardState) (pid : String) :
    (ensurePlayer b pid).cols = b.cols := by
  unfold ensurePlayer; cases getPlayer? b pid <;> rfl

theorem ensurePlayer_cards (b : BoardState) (pid : String) :
    (ensurePlayer b pid).cards = b.cards := by
  unfold ensurePlayer; cases getPlayer? b pid <;> rfl

theorem ensurePlayer_waitQueues (b : BoardState) (pid : String) :
    (ensurePlayer b pid).waitQueues = b.waitQueues := by
  unfold ensurePlayer; cases getPlayer? b pid <;> rfl

/-- Reads of the grid only depend on the `cards` field. -/
theorem getCard_congr (b b' : BoardState) (p : Position) (h : b'.cards = b.cards) :
    getCard b' p = getCard b p := by
  unfold getCard; rw [h]

theorem faceUpAt_congr (b b' : BoardState) (p : Position) (h : b'.cards = b.cards) :
    faceUpAt b' p = faceUpAt b p := by
  unfold faceUpAt; rw [getCard_congr b b' p h]

theorem contentAt_congr (b b' : BoardState) (p : Position) (h : b'.cards = b.cards) :
    contentAt b' p = contentAt b p := by
  unfold contentAt; rw [getCard_congr b b' p h]

/-- A present card witnesses that its position is inside the `cards` array. -/
theorem getCard_some_shape (b : BoardState) (p : Position) (c : Card)
    (h : getCard b p = some c) :
    p.row < b.cards.length ∧ p.col < (b.cards.getD p.row []).length := by
  unfold getCard at h
  constructor
  · by_contra hlen
    push_neg at hlen
    rw [List.getD_eq_default _ _ hlen] at h
    simp at h
  · by_contra hlen
    push_neg at hlen
    rw [List.getD_eq_default _ _ hlen] at h
    exact Option.noConfusion h

theorem getCard_setCard_ne (b : BoardState) (p q : Position) (oc : Option Card)
    (h : q ≠ p) : getCard (setCard b p oc) q = getCard b q := by
  obtain ⟨pr, pc⟩ := p
  obtain ⟨qr, qc⟩ := q
  unfold getCard setCard
  simp only [List.getD_eq_getElem?_getD, List.getElem?_set]
  by_cases hr : pr = qr
  · subst hr
    have hc : pc ≠ qc := by
      intro hc; subst hc; exact h rfl
    by_cases hlen : pr < b.cards.length
    · simp [hlen, List.getElem?_set, hc]
    · simp [hlen, List.getElem?_eq_none (Nat.le_of_not_lt hlen)]
  · simp [hr]

theorem getCard_setCard_self (b : BoardState) (p : Position) (oc : Option Card)
    (h1 : p.row < b.cards.length) (h2 : p.col < (b.cards.getD p.row []).length) :
    getCard (setCard b p oc) p = oc := by
  unfold getCard setCard
  dsimp only
  have houter : (b.cards.set p.row ((b.cards.getD p.row []).set p.col oc)).getD p.row []
      = (b.cards.getD p.row []).set p.col oc := by
    rw [List.getD_eq_getElem?_getD, List.getElem?_set_self h1, Option.getD_some]
  rw [houter, List.getD_eq_getElem?_getD, List.getElem?_set_self h2, Option.getD_some]

/-- `setCard` keeps the grid's shape. -/
theorem wfGrid_setCard (b : BoardState) (p : Position) (oc : Option Card)
    (h : WfGrid b) : WfGrid (setCard b p oc) := by
  obtain ⟨h1, h2, h3, h4⟩ := h
  refine ⟨h1, h2, ?_, ?_⟩
  · simpa [setCard] using h3
  · intro row hrow
    simp only [setCard] at hrow
    by_cases hlen : p.row < b.cards.length
    · rcases List.mem_or_eq_of_mem_set hrow with hmem | heq
      · exact h4 row hmem
      · subst heq
        rw [List.length_set, List.getD_eq_getElem _ _ hlen]
        exact h4 _ (List.getElem_mem hlen)
    · rw [List.set_eq_of_length_le (Nat.le_of_not_lt hlen)] at hrow
      exact h4 row hrow

/-! Lemmas about the player map and the queue operations. -/

@[simp] theorem getCard_notifyWaiters (b : BoardState) (p q : Position) :
    getCard (notifyWaiters b p) q = getCard b q := rfl

@[simp] theorem getCard_waitForCard (b : BoardState) (p q : Position) :
    getCard (waitForCard b p) q = getCard b q := rfl

@[simp] theorem getCard_setPlayer (b : BoardState) (pid : String)
    (f : PlayerState → PlayerState) (q : Position) :
    getCard (setPlayer b pid f) q = getCard b q := rfl

@[simp] theorem faceUpAt_notifyWaiters (b : BoardState) (p q : Position) :
    faceUpAt (notifyWaiters b p) q = faceUpAt b q := rfl

@[simp] theorem faceUpAt_setPlayer (b : BoardState) (pid : String)
    (f : PlayerState → PlayerState) (q : Position) :
    faceUpAt (setPlayer b pid f) q = faceUpAt b q := rfl

@[simp] theorem getPlayer?_notifyWaiters (b : BoardState) (p : Position) (pid : String) :
    getPlayer? (notifyWaiters b p) pid = getPlayer? b pid := rfl

@[simp] theorem getPlayer?_waitForCard (b : BoardState) (p : Position) (pid : String) :
    getPlayer? (waitForCard b p) pid = getPlayer? b pid := rfl

@[simp] theorem getPlayer?_setCard (b : BoardState) (p : Position) (oc : Option Card)
    (pid : String) : getPlayer? (setCard b p oc) pid = getPlayer? b pid := rfl

@[simp] theorem getSt_notifyWaiters (b : BoardState) (p : Position) (pid : String) :
    getSt (notifyWaiters b p) pid = getSt b pid := rfl

@[simp] theorem getSt_setCard (b : BoardState) (p : Position) (oc : Option Card)
    (pid : String) : getSt (setCard b p oc) pid = getSt b pid := rfl

@[simp] theorem isCardControlled_notifyWaiters (b : BoardState) (p q : Position) :
    isCardControlled (notifyWaiters b p) q = isCardControlled b q := rfl

@[simp] theorem isCardControlled_setCard (b : BoardState) (p : Position) (oc : Option Card)
    (q : Position) : isCardControlled (setCard b p oc) q = isCardControlled b q := rfl

@[simp] theorem pendingMatched_notifyWaiters (b : BoardState) (p : Position) (s : PlayerState) :
    pendingMatched (notifyWaiters b p) s = pendingMatched b s := rfl

@[simp] theorem pendingMatched_setPlayer (b : BoardState) (pid : String)
    (f : PlayerState → PlayerState) (s : PlayerState) :
    pendingMatched (setPlayer b pid f) s = pendingMatched b s := rfl

theorem getPlayer?_some_id (b : BoardState) (pid : String) (s : PlayerState)
    (h : getPlayer? b pid = some s) : s.playerId = pid := by
  have := List.find?_some h
  simpa using this

theorem getPlayer?_mem (b : BoardState) (pid : String) (s : PlayerState)
    (h : getPlayer? b pid = some s) : s ∈ b.playerStates :=
  List.mem_of_find?_eq_some h

theorem find?_map_update (l : List PlayerState) (pid pid2 : String)
    (f : PlayerState → PlayerState) (hid : ∀ s, (f s).playerId = s.playerId) :
    (l.map (fun s => if s.playerId = pid then f s else s)).find? (fun s => s.playerId == pid2) =
      (l.find? (fun s => s.playerId == pid2)).map
        (fun s => if s.playerId = pid then f s else s) := by
  induction l with
  | nil => rfl
  | cons a t ih =>
    have hpred : ((if a.playerId = pid then f a else a).playerId == pid2)
        = (a.playerId == pid2) := by
      by_cases hp : a.playerId = pid <;> simp [hp, hid]
    simp only [List.map_cons, List.find?_cons, hpred]
    cases hb : (a.playerId == pid2) with
    | true => simp
    | false => simpa using ih

theorem getPlayer?_setPlayer (b : BoardState) (pid pid2 : String)
    (f : PlayerState → PlayerState) (hid : ∀ s, (f s).playerId = s.playerId) :
    getPlayer? (setPlayer b pid f) pid2 =
      (getPlayer? b pid2).map (fun s => if s.playerId = pid then f s else s) := by
  unfold getPlayer? setPlayer
  exact find?_map_update b.playerStates pid pid2 f hid

theorem getPlayer?_setPlayer_self (b : BoardState) (pid : String) (s : PlayerState)
    (f : PlayerState → PlayerState) (hid : ∀ s, (f s).playerId = s.playerId)
    (h : getPlayer? b pid = some s) :
    getPlayer? (setPlayer b pid f) pid = some (f s) := by
  rw [getPlayer?_setPlayer b pid pid f hid, h]
  simp [getPlayer?_some_id b pid s h]

theorem getSt_setPlayer_self (b : BoardState) (pid : String) (s : PlayerState)
    (f : PlayerState → PlayerState) (hid : ∀ s, (f s).playerId = s.playerId)
    (h : getPlayer? b pid = some s) :
    getSt (setPlayer b pid f) pid = f s := by
  unfold getSt
  rw [getPlayer?_setPlayer_self b pid s f hid h]
  rfl

theorem ensurePlayer_of_some (b : BoardState) (pid : String) (s : PlayerState)
    (h : getPlayer? b pid = some s) : ensurePlayer b pid = b := by
  unfold ensurePlayer
  rw [h]

theorem getPlayer?_ensurePlayer (b : BoardState) (pid : String) :
    getPlayer? (ensurePlayer b pid) pid = some (getSt b pid) := by
  unfold ensurePlayer getSt
  cases h : getPlayer? b pid with
  | some s => simpa using h
  | none =>
    unfold getPlayer? at h ⊢
    dsimp only
    rw [List.find?_append, h]
    simp [freshPlayer]

theorem getSt_ensurePlayer (b : BoardState) (pid : String) :
    getSt (ensurePlayer b pid) pid = getSt b pid := by
  unfold getSt
  rw [getPlayer?_ensurePlayer]
  rfl

theorem isCardControlled_iff (b : BoardState) (p : Position) :
    isCardControlled b p = true ↔ ∃ s ∈ b.playerStates, p ∈ s.controlled := by
  unfold isCardControlled
  simp [List.any_eq_true]

theorem isCardControlled_false (b : BoardState) (p : Position)
    (h : isCardControlled b p = false) :
    ∀ s ∈ b.playerStates, p ∉ s.controlled := by
  intro s hs hp
  have : isCardControlled b p = true := (isCardControlled_iff b p).mpr ⟨s, hs, hp⟩
  rw [h] at this
  exact Bool.noConfusion this

theorem faceUpAt_true_iff (b : BoardState) (p : Position) :
    faceUpAt b p = true ↔ ∃ c, getCard b p = some c ∧ c.faceUp = true := by
  unfold faceUpAt
  cases h : getCard b p <;> simp

theorem getCard_setCard_none_self (b : BoardState) (p : Position) :
    getCard (setCard b p none) p = none := by
  by_cases h1 : p.row < b.cards.length
  · by_cases h2 : p.col < (b.cards.getD p.row []).length
    · rw [getCard_setCard_self b p none h1 h2]
    · unfold getCard setCard
      dsimp only
      have houter : (b.cards.set p.row ((b.cards.getD p.row []).set p.col none)).getD p.row []
          = (b.cards.getD p.row []).set p.col none := by
        rw [List.getD_eq_getElem?_getD, List.getElem?_set_self h1, Option.getD_some]
      rw [houter, List.getD_eq_getElem?_getD, List.getElem?_eq_none]
      · rfl
      · rw [List.length_set]
        exact Nat.le_of_not_lt h2
  · unfold getCard setCard
    dsimp only
    rw [List.set_eq_of_length_le (Nat.le_of_not_lt h1),
      List.getD_eq_default _ _ (Nat.le_of_not_lt h1)]
    rfl

/-- Flipping a present card's face preserves presence and content everywhere. -/
theorem contentAt_setCard_flip (b : BoardState) (p : Position) (c : Card) (u : Bool)
    (h : getCard b p = some c) (q : Position) :
    contentAt (setCard b p (some { c with faceUp := u })) q = contentAt b q := by
  by_cases hq : q = p
  · subst hq
    obtain ⟨h1, h2⟩ := getCard_some_shape b q c h
    unfold contentAt
    rw [getCard_setCard_self b q _ h1 h2, h]
    simp
  · unfold contentAt
    rw [getCard_setCard_ne b p q _ hq]

theorem pendingMatched_congr (b b' : BoardState) (s : PlayerState)
    (h : ∀ q, contentAt b' q = contentAt b q) :
    pendingMatched b' s = pendingMatched b s := by
  unfold pendingMatched
  cases s.toCleanUp with
  | nil => rfl
  | cons p1 rest =>
    cases rest with
    | nil => rfl
    | cons p2 rest2 =>
      cases rest2 with
      | cons q t => rfl
      | nil =>
        have h1 := h p1
        have h2 := h p2
        unfold contentAt at h1 h2
        cases e1 : getCard b' p1 <;> cases e2 : getCard b p1 <;>
          cases e3 : getCard b' p2 <;> cases e4 : getCard b p2 <;>
          rw [e1, e2] at h1 <;> rw [e3, e4] at h2 <;>
          simp_all [Card.matches]

theorem pendingMatched_setCard_none (b : BoardState) (p : Position) (s : PlayerState)
    (h : pendingMatched (setCard b p none) s = true) : pendingMatched b s = true := by
  unfold pendingMatched at h ⊢
  cases htc : s.toCleanUp with
  | nil => rw [htc] at h; simp at h
  | cons p1 rest =>
    cases rest with
    | nil => rw [htc] at h; simp at h
    | cons p2 rest2 =>
      cases rest2 with
      | cons q t => rw [htc] at h; simp at h
      | nil =>
        rw [htc] at h
        dsimp only at h ⊢
        cases e1 : getCard (setCard b p none) p1 with
        | none => rw [e1] at h; simp at h
        | some c1 =>
          cases e2 : getCard (setCard b p none) p2 with
          | none => rw [e1, e2] at h; simp at h
          | some c2 =>
            have hp1 : p1 ≠ p := by
              intro hp; subst hp
              rw [getCard_setCard_none_self] at e1
              exact Option.noConfusion e1
            have hp2 : p2 ≠ p := by
              intro hp; subst hp
              rw [getCard_setCard_none_self] at e2
              exact Option.noConfusion e2
            rw [getCard_setCard_ne b p p1 none hp1, getCard_setCard_ne b p p2 none hp2] at h
            rw [getCard_setCard_ne b p p1 none hp1] at e1
            rw [getCard_setCard_ne b p p2 none hp2] at e2
            rw [e1, e2] at h ⊢
            exact h

theorem playersDisjRel_symm :
    Symmetric (fun s1 s2 : PlayerState =>
      s1.playerId ≠ s2.playerId ∧ ∀ p ∈ s1.controlled, p ∉ s2.controlled) := by
  intro s1 s2 h
  exact ⟨fun he => h.1 he.symm, fun p hp2 hp1 => h.2 p hp1 hp2⟩

theorem controlled_unique (b : BoardState) (h : Inv b) (p : Position)
    (s1 : PlayerState) (h1 : s1 ∈ b.playerStates) (s2 : PlayerState)
    (h2 : s2 ∈ b.playerStates) (hp1 : p ∈ s1.controlled) (hp2 : p ∈ s2.controlled) :
    s1 = s2 := by
  by_contra hne
  exact (h.2.1.forall playersDisjRel_symm h1 h2 hne).2 p hp1 hp2

theorem mem_id_unique (b : BoardState) (hdisj : PlayersDisj b.playerStates)
    (s0 s : PlayerState) (h0 : s0 ∈ b.playerStates) (hs : s ∈ b.playerStates)
    (hid : s.playerId = s0.playerId) : s = s0 := by
  by_contra hne
  exact (hdisj.forall playersDisjRel_symm hs h0 hne).1 hid

theorem flatten_nodup_of_inv (b : BoardState) (h : Inv b) :
    ((b.playerStates.map (fun s => s.controlled)).flatten).Nodup := by
  rw [List.nodup_flatten]
  constructor
  · intro l hl
    obtain ⟨s, hs, rfl⟩ := List.mem_map.1 hl
    exact (h.2.2 s hs).2.1
  · rw [List.pairwise_map]
    exact h.2.1.imp (fun hr => fun p hp1 hp2 => hr.2 p hp1 hp2)

theorem checkRepB_of_Inv (b : BoardState) (h : Inv b) : checkRepB b = true := by
  obtain ⟨⟨hr, hc, hlen, hrow⟩, hdisj, hplayers⟩ := h
  unfold checkRepB
  simp only [Bool.and_eq_true, decide_eq_true_eq, List.all_eq_true]
  refine ⟨⟨⟨⟨⟨hr, hc⟩, hlen⟩, fun row hm => hrow row hm⟩, ?_⟩, ?_⟩
  · intro s hs
    obtain ⟨hle, hnd, hctl, _, _⟩ := hplayers s hs
    exact ⟨hle, fun p hp => ⟨⟨(hctl p hp).1, (hctl p hp).2.1⟩, (hctl p hp).2.2⟩⟩
  · exact flatten_nodup_of_inv b ⟨⟨hr, hc, hlen, hrow⟩, hdisj, hplayers⟩

theorem checkedReturn_eq_ok (b : BoardState) (h : Inv b) : checkedReturn b = .ok b := by
  unfold checkedReturn
  rw [checkRepB_of_Inv b h]
  rfl

/-- Updating the caller's slot preserves player separation when the update
only removes positions or adds one position controlled by nobody. -/
theorem playersDisj_setPlayer (b : BoardState) (pid : String) (position : Position)
    (f : PlayerState → PlayerState)
    (hid : ∀ s, (f s).playerId = s.playerId)
    (hsub : ∀ s, ∀ p ∈ (f s).controlled, p ∈ s.controlled ∨ p = position)
    (hfree : ∀ s ∈ b.playerStates, position ∉ s.controlled)
    (h : PlayersDisj b.playerStates) :
    PlayersDisj (setPlayer b pid f).playerStates := by
  have hgid : ∀ s : PlayerState,
      (if s.playerId = pid then f s else s).playerId = s.playerId := by
    intro s
    by_cases e : s.playerId = pid <;> simp [e, hid]
  unfold PlayersDisj at *
  simp only [setPlayer_playerStates]
  rw [List.pairwise_map]
  refine h.imp_of_mem ?_
  intro s1 s2 h1 h2 hr
  refine ⟨?_, ?_⟩
  · rw [hgid, hgid]
    exact hr.1
  · intro p hp hp2
    by_cases e1 : s1.playerId = pid <;> by_cases e2 : s2.playerId = pid
    · exact hr.1 (e1.trans e2.symm)
    · rw [if_pos e1] at hp
      rw [if_neg e2] at hp2
      rcases hsub s1 p hp with hin | rfl
      · exact hr.2 p hin hp2
      · exact hfree s2 h2 hp2
    · rw [if_neg e1] at hp
      rw [if_pos e2] at hp2
      rcases hsub s2 p hp2 with hin | rfl
      · exact hr.2 p hp hin
      · exact hfree s1 h1 hp
    · rw [if_neg e1] at hp
      rw [if_neg e2] at hp2
      exact hr.2 p hp hp2

/-- A purely shrinking update preserves player separation. -/
theorem playersDisj_setPlayer_shrink (b : BoardState) (pid : String)
    (f : PlayerState → PlayerState)
    (hid : ∀ s, (f s).playerId = s.playerId)
    (hsub : ∀ s, ∀ p ∈ (f s).controlled, p ∈ s.controlled)
    (h : PlayersDisj b.playerStates) :
    PlayersDisj (setPlayer b pid f).playerStates := by
  have hgid : ∀ s : PlayerState,
      (if s.playerId = pid then f s else s).playerId = s.playerId := by
    intro s
    by_cases e : s.playerId = pid <;> simp [e, hid]
  unfold PlayersDisj at *
  simp only [setPlayer_playerStates]
  rw [List.pairwise_map]
  refine h.imp_of_mem ?_
  intro s1 s2 h1 h2 hr
  refine ⟨?_, ?_⟩
  · rw [hgid, hgid]
    exact hr.1
  · intro p hp hp2
    by_cases e1 : s1.playerId = pid <;> by_cases e2 : s2.playerId = pid <;>
      [skip; rw [if_pos e1] at hp; rw [if_neg e1] at hp; rw [if_neg e1] at hp] <;>
      [skip; rw [if_neg e2] at hp2; rw [if_pos e2] at hp2; rw [if_neg e2] at hp2]
    · exact hr.1 (e1.trans e2.symm)
    · exact hr.2 p (hsub s1 p hp) hp2
    · exact hr.2 p hp (hsub s2 p hp2)
    · exact hr.2 p hp hp2

theorem inv_ensurePlayer (b : BoardState) (pid : String) (h : Inv b) :
    Inv (ensurePlayer b pid) := by
  unfold ensurePlayer
  cases hg : getPlayer? b pid with
  | some s => exact h
  | none =>
    obtain ⟨hwf, hdisj, hplayers⟩ := h
    have hnotin : ∀ s ∈ b.playerStates, ¬ (s.playerId == pid) = true := by
      unfold getPlayer? at hg
      exact List.find?_eq_none.1 hg
    refine ⟨hwf, ?_, ?_⟩
    · unfold PlayersDisj at *
      rw [List.pairwise_append]
      refine ⟨hdisj, List.pairwise_singleton _ _, ?_⟩
      intro s hs s' hs'
      have hfr : s' = freshPlayer pid := by simpa using hs'
      subst hfr
      refine ⟨?_, ?_⟩
      · intro he
        exact hnotin s hs (by simp [freshPlayer] at he; simp [he])
      · intro p hp
        simp [freshPlayer]
    · intro s hs
      rcases List.mem_append.1 hs with hmem | hmem
      · exact hplayers s hmem
      · have hfr : s = freshPlayer pid := by simpa using hmem
        subst hfr
        refine ⟨by simp [freshPlayer], by simp [freshPlayer], by simp [freshPlayer], ?_, ?_⟩
        · left; simp [freshPlayer]
        · intro hpm
          simp [pendingMatched, freshPlayer] at hpm

theorem wfGrid_congr (b b' : BoardState) (hr : b'.rows = b.rows) (hc : b'.cols = b.cols)
    (hcards : b'.cards = b.cards) (h : WfGrid b) : WfGrid b' := by
  unfold WfGrid at *
  rw [hr, hc, hcards]
  exact h

theorem faceUpAt_setCard_ne (b : BoardState) (p q : Position) (oc : Option Card)
    (h : q ≠ p) : faceUpAt (setCard b p oc) q = faceUpAt b q := by
  unfold faceUpAt
  rw [getCard_setCard_ne b p q oc h]

theorem isCardControlled_congr (b b' : BoardState) (p : Position)
    (h : b'.playerStates = b.playerStates) : isCardControlled b' p = isCardControlled b p := by
  unfold isCardControlled
  rw [h]

theorem not_controlled_of_faceDown (b : BoardState) (hb : Inv b) (p : Position)
    (h : faceUpAt b p = false) : ∀ s ∈ b.playerStates, p ∉ s.controlled := by
  intro s hs hp
  have hface := ((hb.2.2 s hs).2.2.1 p hp).2.2
  rw [h] at hface
  exact Bool.noConfusion hface

theorem getPlayer?_congr (b b' : BoardState) (pid : String)
    (h : b'.playerStates = b.playerStates) : getPlayer? b' pid = getPlayer? b pid := by
  unfold getPlayer?
  rw [h]

/-- `cleanupFlipDown` never throws: its outcome is a state that differs at most
by a face-down flip at `p` of a card controlled by nobody. -/
theorem cleanupFlipDown_ok (b : BoardState) (p : Position) :
    ∃ ba, cleanupFlipDown b p = .ok ba ∧ ba.rows = b.rows ∧ ba.cols = b.cols ∧
      ba.playerStates = b.playerStates ∧ ba.waitQueues = b.waitQueues ∧
      (∀ q, contentAt ba q = contentAt b q) ∧
      (∀ q, q ≠ p → faceUpAt ba q = faceUpAt b q) ∧
      (∀ q, isCardControlled b q = true → faceUpAt ba q = faceUpAt b q) ∧
      (WfGrid b → WfGrid ba) := by
  unfold cleanupFlipDown
  cases hcc : getCard b p with
  | none =>
    exact ⟨b, rfl, rfl, rfl, rfl, rfl, fun q => rfl, fun q _ => rfl, fun q _ => rfl, fun h => h⟩
  | some c =>
    dsimp only
    by_cases hguard : (c.faceUp && !isCardControlled b p) = true
    · rw [if_pos hguard]
      have hguard' := hguard
      rw [Bool.and_eq_true] at hguard'
      obtain ⟨hfu, hnc⟩ := hguard'
      have hnc' : isCardControlled b p = false := by simpa using hnc
      unfold flipCardDown
      rw [hfu]
      simp only [Bool.not_true, Bool.false_eq_true, if_false]
      rw [if_neg (by simp [hnc'])]
      refine ⟨_, rfl, rfl, rfl, rfl, rfl, ?_, ?_, ?_, ?_⟩
      · intro q
        exact contentAt_setCard_flip b p c false hcc q
      · intro q hq
        exact faceUpAt_setCard_ne b p q _ hq
      · intro q hq
        have hqp : q ≠ p := by
          intro he
          subst he
          rw [hnc'] at hq
          exact Bool.noConfusion hq
        exact faceUpAt_setCard_ne b p q _ hqp
      · exact wfGrid_setCard b p _
    · rw [if_neg hguard]
      exact ⟨b, rfl, rfl, rfl, rfl, rfl, fun q => rfl, fun q _ => rfl, fun q _ => rfl, fun h => h⟩

theorem pendingMatched_nil (b : BoardState) (s : PlayerState) (h : s.toCleanUp = []) :
    pendingMatched b s = false := by
  unfold pendingMatched
  rw [h]

theorem pendingMatched_eq_of_toCleanUp (b : BoardState) (s1 s2 : PlayerState)
    (h : s1.toCleanUp = s2.toCleanUp) : pendingMatched b s1 = pendingMatched b s2 := by
  unfold pendingMatched
  rw [h]

/-- `Inv` after appending one fresh position to the caller's empty `controlled`
list, in a state `bU` whose grid differs from `b` at most by flipping the
target face-up. Covers rules 1-B and 1-C. -/
theorem inv_after_push (b bU : BoardState) (pid : String) (s0 : PlayerState)
    (position : Position)
    (hb : Inv b)
    (hs0 : getPlayer? b pid = some s0)
    (hctl : s0.controlled = [])
    (htc : s0.toCleanUp = [])
    (hrow : position.row < b.rows) (hcol : position.col < b.cols)
    (hrows : bU.rows = b.rows) (hcols : bU.cols = b.cols)
    (hps : bU.playerStates = b.playerStates)
    (hwf : WfGrid bU)
    (hcontent : ∀ q, contentAt bU q = contentAt b q)
    (hfaceNe : ∀ q, q ≠ position → faceUpAt bU q = faceUpAt b q)
    (hface : faceUpAt bU position = true)
    (hfree : ∀ s ∈ b.playerStates, position ∉ s.controlled) :
    Inv (setPlayer bU pid (fun s => { s with controlled := s.controlled ++ [position] })) := by
  obtain ⟨hwfb, hdisj, hplayers⟩ := hb
  refine ⟨hwf, ?_, ?_⟩
  · refine playersDisj_setPlayer bU pid position _ (fun s => rfl) ?_ ?_ (by rw [hps]; exact hdisj)
    · intro s p hp
      rcases List.mem_append.1 hp with hmem | hmem
      · exact Or.inl hmem
      · exact Or.inr (by simpa using hmem)
    · rw [hps]
      exact hfree
  · intro s' hs'
    simp only [setPlayer_playerStates] at hs'
    obtain ⟨s, hsU, rfl⟩ := List.mem_map.1 hs'
    have hsb : s ∈ b.playerStates := by rw [hps] at hsU; exact hsU
    have hcomp := hplayers s hsb
    by_cases e : s.playerId = pid
    · have hseq : s = s0 := mem_id_unique b hdisj s0 s (getPlayer?_mem b pid s0 hs0) hsb
        (by rw [e, getPlayer?_some_id b pid s0 hs0])
      have hc0 : s.controlled = [] := by rw [hseq]; exact hctl
      have ht0 : s.toCleanUp = [] := by rw [hseq]; exact htc
      rw [if_pos e]
      refine ⟨?_, ?_, ?_, ?_, ?_⟩
      · show (s.controlled ++ [position]).length ≤ 2
        rw [hc0]; simp
      · show (s.controlled ++ [position]).Nodup
        rw [hc0]; simp
      · intro p hp
        have hp' : p = position := by
          rw [hc0] at hp; simpa using hp
        subst hp'
        refine ⟨?_, ?_, ?_⟩
        · simp only [setPlayer_rows]; rw [hrows]; exact hrow
        · simp only [setPlayer_cols]; rw [hcols]; exact hcol
        · rw [faceUpAt_setPlayer]; exact hface
      · show s.toCleanUp.length = 0 ∨ s.toCleanUp.length = 2
        rw [ht0]; left; rfl
      · intro hpm
        rw [pendingMatched_setPlayer,
          pendingMatched_eq_of_toCleanUp bU
            { playerId := s.playerId, controlled := s.controlled ++ [position],
              toCleanUp := s.toCleanUp } s rfl,
          pendingMatched_nil bU s ht0] at hpm
        exact Bool.noConfusion hpm
    · rw [if_neg e]
      refine ⟨hcomp.1, hcomp.2.1, ?_, hcomp.2.2.2.1, ?_⟩
      · intro p hp
        have hinb := hcomp.2.2.1 p hp
        have hpne : p ≠ position := fun he => hfree s hsb (he ▸ hp)
        refine ⟨?_, ?_, ?_⟩
        · simp only [setPlayer_rows]; rw [hrows]; exact hinb.1
        · simp only [setPlayer_cols]; rw [hcols]; exact hinb.2.1
        · rw [faceUpAt_setPlayer, hfaceNe p hpne]; exact hinb.2.2
      · intro hpm
        rw [pendingMatched_setPlayer, pendingMatched_congr b bU s hcontent] at hpm
        exact hcomp.2.2.2.2 hpm

/-- `Inv` after replacing the caller's lists by an empty `controlled` and a
new `toCleanUp`, in a state `bU` whose grid may differ from `b` (the
hypotheses ask exactly what rules 2-A, 2-B, 2-E and the cleanup epilogue
provide). -/
theorem inv_clear (b bU : BoardState) (pid : String) (tc' : List Position)
    (hb : Inv b)
    (hrows : bU.rows = b.rows) (hcols : bU.cols = b.cols)
    (hps : bU.playerStates = b.playerStates)
    (hwf : WfGrid bU)
    (hpm : ∀ s ∈ b.playerStates, s.playerId ≠ pid →
      pendingMatched bU s = true → pendingMatched b s = true)
    (hfacePres : ∀ s ∈ b.playerStates, s.playerId ≠ pid →
      ∀ p ∈ s.controlled, faceUpAt bU p = faceUpAt b p)
    (hpar : tc'.length = 0 ∨ tc'.length = 2)
    (hnm : tc' = [] ∨
      pendingMatched bU { playerId := pid, controlled := [], toCleanUp := tc' } = false) :
    Inv (setPlayer bU pid (fun s => { s with controlled := [], toCleanUp := tc' })) := by
  obtain ⟨hwfb, hdisj, hplayers⟩ := hb
  refine ⟨hwf, ?_, ?_⟩
  · refine playersDisj_setPlayer_shrink bU pid _ (fun s => rfl) ?_ (by rw [hps]; exact hdisj)
    · intro s p hp
      simp at hp
  · intro s' hs'
    simp only [setPlayer_playerStates] at hs'
    obtain ⟨s, hsU, rfl⟩ := List.mem_map.1 hs'
    have hsb : s ∈ b.playerStates := by rw [hps] at hsU; exact hsU
    have hcomp := hplayers s hsb
    by_cases e : s.playerId = pid
    · rw [if_pos e]
      refine ⟨by simp, by simp, by intro p hp; simp at hp, hpar, ?_⟩
      intro hpm2
      rcases hnm with hnil | hfalse
      · rw [pendingMatched_setPlayer,
          pendingMatched_eq_of_toCleanUp bU
            { playerId := s.playerId, controlled := [], toCleanUp := tc' }
            { playerId := pid, controlled := [], toCleanUp := tc' } rfl,
          pendingMatched_nil bU { playerId := pid, controlled := [], toCleanUp := tc' } hnil]
          at hpm2
        exact Bool.noConfusion hpm2
      · rw [pendingMatched_setPlayer,
          pendingMatched_eq_of_toCleanUp bU
            { playerId := s.playerId, controlled := [], toCleanUp := tc' }
            { playerId := pid, controlled := [], toCleanUp := tc' } rfl,
          hfalse] at hpm2
        exact Bool.noConfusion hpm2
    · rw [if_neg e]
      refine ⟨hcomp.1, hcomp.2.1, ?_, hcomp.2.2.2.1, ?_⟩
      · intro p hp
        have hinb := hcomp.2.2.1 p hp
        refine ⟨?_, ?_, ?_⟩
        · simp only [setPlayer_rows]; rw [hrows]; exact hinb.1
        · simp only [setPlayer_cols]; rw [hcols]; exact hinb.2.1
        · rw [faceUpAt_setPlayer, hfacePres s hsb e p hp]; exact hinb.2.2
      · intro hpm2
        rw [pendingMatched_setPlayer] at hpm2
        exact hcomp.2.2.2.2 (hpm s hsb e hpm2)

/-- `Inv` after rule 2-D: the caller's `controlled` grows to the matched pair
and `toCleanUp` is set to the same pair. -/
theorem inv_match_pair (b bU : BoardState) (pid : String) (s0 : PlayerState)
    (firstPos position : Position)
    (hb : Inv b)
    (hs0 : getPlayer? b pid = some s0)
    (hctl : s0.controlled = [firstPos])
    (hrow : position.row < b.rows) (hcol : position.col < b.cols)
    (hrows : bU.rows = b.rows) (hcols : bU.cols = b.cols)
    (hps : bU.playerStates = b.playerStates)
    (hwf : WfGrid bU)
    (hcontent : ∀ q, contentAt bU q = contentAt b q)
    (hfaceNe : ∀ q, q ≠ position → faceUpAt bU q = faceUpAt b q)
    (hface : faceUpAt bU position = true)
    (hfree : ∀ s ∈ b.playerStates, position ∉ s.controlled) :
    Inv (setPlayer bU pid (fun s =>
      { s with controlled := s.controlled ++ [position],
               toCleanUp := [firstPos, position] })) := by
  obtain ⟨hwfb, hdisj, hplayers⟩ := hb
  have hs0mem := getPlayer?_mem b pid s0 hs0
  have hcomp0 := hplayers s0 hs0mem
  refine ⟨hwf, ?_, ?_⟩
  · refine playersDisj_setPlayer bU pid position _ (fun s => rfl) ?_ ?_ (by rw [hps]; exact hdisj)
    · intro s p hp
      rcases List.mem_append.1 hp with hmem | hmem
      · exact Or.inl hmem
      · exact Or.inr (by simpa using hmem)
    · rw [hps]
      exact hfree
  · intro s' hs'
    simp only [setPlayer_playerStates] at hs'
    obtain ⟨s, hsU, rfl⟩ := List.mem_map.1 hs'
    have hsb : s ∈ b.playerStates := by rw [hps] at hsU; exact hsU
    have hcomp := hplayers s hsb
    by_cases e : s.playerId = pid
    · have hseq : s = s0 := mem_id_unique b hdisj s0 s hs0mem hsb
        (by rw [e, getPlayer?_some_id b pid s0 hs0])
      have hc0 : s.controlled = [firstPos] := by rw [hseq]; exact hctl
      have hne : firstPos ≠ position := by
        intro he
        exact hfree s0 hs0mem (by rw [hctl, ← he]; exact List.mem_singleton_self firstPos)
      have hfirstb := hcomp.2.2.1 firstPos (by rw [hc0]; exact List.mem_singleton_self firstPos)
      rw [if_pos e]
      refine ⟨?_, ?_, ?_, ?_, ?_⟩
      · show (s.controlled ++ [position]).length ≤ 2
        rw [hc0]; rfl
      · show (s.controlled ++ [position]).Nodup
        rw [hc0]; simp [hne]
      · intro p hp
        rw [hc0] at hp
        simp only [List.mem_append, List.mem_singleton] at hp
        rcases hp with hp | hp
        · subst hp
          refine ⟨?_, ?_, ?_⟩
          · simp only [setPlayer_rows]; rw [hrows]; exact hfirstb.1
          · simp only [setPlayer_cols]; rw [hcols]; exact hfirstb.2.1
          · rw [faceUpAt_setPlayer, hfaceNe p hne]; exact hfirstb.2.2
        · subst hp
          refine ⟨?_, ?_, ?_⟩
          · simp only [setPlayer_rows]; rw [hrows]; exact hrow
          · simp only [setPlayer_cols]; rw [hcols]; exact hcol
          · rw [faceUpAt_setPlayer]; exact hface
      · right
        show ([firstPos, position] : List Position).length = 2
        rfl
      · intro _
        show s.controlled ++ [position] = [firstPos, position]
        rw [hc0]
        rfl
    · rw [if_neg e]
      refine ⟨hcomp.1, hcomp.2.1, ?_, hcomp.2.2.2.1, ?_⟩
      · intro p hp
        have hinb := hcomp.2.2.1 p hp
        have hpne : p ≠ position := fun he => hfree s hsb (he ▸ hp)
        refine ⟨?_, ?_, ?_⟩
        · simp only [setPlayer_rows]; rw [hrows]; exact hinb.1
        · simp only [setPlayer_cols]; rw [hcols]; exact hinb.2.1
        · rw [faceUpAt_setPlayer, hfaceNe p hpne]; exact hinb.2.2
      · intro hpm
        rw [pendingMatched_setPlayer, pendingMatched_congr b bU s hcontent] at hpm
        exact hcomp.2.2.2.2 hpm

/-- `Inv` after clearing the caller's `controlled` while keeping `toCleanUp`
(which is empty for the caller). Covers rules 2-A and 2-B. -/
theorem inv_clear_keep (b bU : BoardState) (pid : String) (s0 : PlayerState)
    (hb : Inv b) (hs0 : getPlayer? b pid = some s0) (htc : s0.toCleanUp = [])
    (hrows : bU.rows = b.rows) (hcols : bU.cols = b.cols)
    (hps : bU.playerStates = b.playerStates) (hwf : WfGrid bU)
    (hpm : ∀ s ∈ b.playerStates, s.playerId ≠ pid →
        pendingMatched bU s = true → pendingMatched b s = true)
    (hfacePres : ∀ s ∈ b.playerStates, s.playerId ≠ pid → ∀ p ∈ s.controlled,
        faceUpAt bU p = faceUpAt b p) :
    Inv (setPlayer bU pid (fun s => { s with controlled := [] })) := by
  obtain ⟨hwfb, hdisj, hplayers⟩ := hb
  refine ⟨hwf, ?_, ?_⟩
  · refine playersDisj_setPlayer_shrink bU pid _ (fun s => rfl) ?_ (by rw [hps]; exact hdisj)
    intro s p hp
    simp at hp
  · intro s' hs'
    simp only [setPlayer_playerStates] at hs'
    obtain ⟨s, hsU, rfl⟩ := List.mem_map.1 hs'
    have hsb : s ∈ b.playerStates := by rw [hps] at hsU; exact hsU
    have hcomp := hplayers s hsb
    by_cases e : s.playerId = pid
    · have hseq : s = s0 := mem_id_unique b hdisj s0 s (getPlayer?_mem b pid s0 hs0) hsb
        (by rw [e, getPlayer?_some_id b pid s0 hs0])
      have ht0 : s.toCleanUp = [] := by rw [hseq]; exact htc
      rw [if_pos e]
      refine ⟨by simp, by simp, by intro p hp; simp at hp, ?_, ?_⟩
      · show s.toCleanUp.length = 0 ∨ s.toCleanUp.length = 2
        rw [ht0]; left; rfl
      · intro hpm2
        rw [pendingMatched_setPlayer,
          pendingMatched_eq_of_toCleanUp bU
            { playerId := s.playerId, controlled := [], toCleanUp := s.toCleanUp } s rfl,
          pendingMatched_nil bU s ht0] at hpm2
        exact Bool.noConfusion hpm2
    · rw [if_neg e]
      refine ⟨hcomp.1, hcomp.2.1, ?_, hcomp.2.2.2.1, ?_⟩
      · intro p hp
        have hinb := hcomp.2.2.1 p hp
        refine ⟨?_, ?_, ?_⟩
        · simp only [setPlayer_rows]; rw [hrows]; exact hinb.1
        · simp only [setPlayer_cols]; rw [hcols]; exact hinb.2.1
        · rw [faceUpAt_setPlayer, hfacePres s hsb e p hp]; exact hinb.2.2
      · intro hpm2
        rw [pendingMatched_setPlayer] at hpm2
        exact hcomp.2.2.2.2 (hpm s hsb e hpm2)

/-- Rule 3-B (both flip-downs) never throws, keeps the grid's shape, contents,
the player map, and the faces of all controlled cards. -/
theorem cleanup_threeB_spec (b : BoardState) (p1 p2 : Position) :
    ∃ b1,
      (match cleanupFlipDown b p1 with
        | .error m => Except.error m
        | .ok ba => cleanupFlipDown ba p2) = Except.ok b1 ∧
      b1.rows = b.rows ∧ b1.cols = b.cols ∧ b1.playerStates = b.playerStates ∧
      (WfGrid b → WfGrid b1) ∧
      (∀ q, contentAt b1 q = contentAt b q) ∧
      (∀ q, isCardControlled b q = true → faceUpAt b1 q = faceUpAt b q) := by
  obtain ⟨ba, hba, har, hac, hap, haq, hacont, hafne, hactl, hawf⟩ := cleanupFlipDown_ok b p1
  obtain ⟨bb, hbb, hbr, hbc, hbp, hbq, hbcont, hbfne, hbctl, hbwf⟩ := cleanupFlipDown_ok ba p2
  refine ⟨bb, ?_, by rw [hbr, har], by rw [hbc, hac], by rw [hbp, hap],
    fun hw => hbwf (hawf hw), ?_, ?_⟩
  · rw [hba]
    exact hbb
  · intro q
    rw [hbcont q, hacont q]
  · intro q hq
    have hqa : isCardControlled ba q = true := by
      rw [isCardControlled_congr b ba q hap]
      exact hq
    rw [hbctl q hqa, hactl q hq]

/-- The cleanup prologue never throws, restores the invariant and leaves the
caller with empty `controlled` and `toCleanUp` lists. -/
theorem runCleanup_spec (b : BoardState) (pid : String) (s0 : PlayerState) (p1 p2 : Position)
    (hb : Inv b) (hs0 : getPlayer? b pid = some s0) (htc : s0.toCleanUp = [p1, p2]) :
    ∃ b1, runCleanup b pid p1 p2 = .ok b1 ∧ Inv b1 ∧
      b1.rows = b.rows ∧ b1.cols = b.cols ∧
      getPlayer? b1 pid = some { playerId := s0.playerId, controlled := [], toCleanUp := [] } := by
  have hdisj := hb.2.1
  have hs0mem := getPlayer?_mem b pid s0 hs0
  have hthreeB :
      ∃ bcl,
        (match cleanupFlipDown b p1 with
          | .error m => Except.error m
          | .ok ba => cleanupFlipDown ba p2) = Except.ok bcl ∧
        Inv (notifyWaiters (notifyWaiters
          (setPlayer bcl pid (fun s => { s with toCleanUp := [], controlled := [] })) p1) p2) ∧
        bcl.rows = b.rows ∧ bcl.cols = b.cols ∧
        getPlayer? (setPlayer bcl pid
            (fun s => { s with toCleanUp := [], controlled := [] })) pid
          = some { playerId := s0.playerId, controlled := [], toCleanUp := [] } := by
    obtain ⟨bcl, hcl, hrows1, hcols1, hps1, hwf1, hcont1, hface1⟩ := cleanup_threeB_spec b p1 p2
    refine ⟨bcl, hcl, ?_, hrows1, hcols1, ?_⟩
    · have hinv : Inv (setPlayer bcl pid
          (fun s => { s with toCleanUp := ([] : List Position),
                             controlled := ([] : List Position) })) := by
        refine inv_clear b bcl pid [] hb hrows1 hcols1 hps1 (hwf1 hb.1) ?_ ?_
          (Or.inl rfl) (Or.inl rfl)
        · intro s hs he hp
          rw [pendingMatched_congr b bcl s hcont1] at hp
          exact hp
        · intro s hs he p hp
          exact hface1 p ((isCardControlled_iff b p).mpr ⟨s, hs, hp⟩)
      exact hinv
    · have hs0cl : getPlayer? bcl pid = some s0 := by
        rw [getPlayer?_congr b bcl pid hps1]
        exact hs0
      rw [getPlayer?_setPlayer_self bcl pid s0
        (fun s => { s with toCleanUp := [], controlled := [] }) (fun s => rfl) hs0cl]
  unfold runCleanup
  cases e1 : getCard b p1 with
  | some c1 =>
    cases e2 : getCard b p2 with
    | some c2 =>
      by_cases hm : c1.matches c2 = true
      · -- rule 3-A: matched removal
        dsimp only
        rw [if_pos hm]
        dsimp only
        have hpend : pendingMatched b s0 = true := by
          unfold pendingMatched
          rw [htc]
          dsimp only
          rw [e1, e2]
          exact hm
        have hc0 : s0.controlled = [p1, p2] := by
          rw [(hb.2.2 s0 hs0mem).2.2.2.2 hpend, htc]
        have hwfBR : WfGrid (setCard (setCard b p1 none) p2 none) :=
          wfGrid_setCard _ p2 none (wfGrid_setCard b p1 none hb.1)
        have hinv : Inv (setPlayer
            (notifyWaiters (notifyWaiters (setCard (setCard b p1 none) p2 none) p1) p2) pid
            (fun s => { s with toCleanUp := ([] : List Position),
                               controlled := ([] : List Position) })) := by
          refine inv_clear b (notifyWaiters (notifyWaiters
              (setCard (setCard b p1 none) p2 none) p1) p2) pid [] hb rfl rfl rfl
            hwfBR ?_ ?_ (Or.inl rfl) (Or.inl rfl)
          · intro s hs he hp
            exact pendingMatched_setCard_none b p1 s
              (pendingMatched_setCard_none (setCard b p1 none) p2 s hp)
          · intro s hs he p hp
            have hsne : s ≠ s0 := by
              intro hseq
              exact he (by rw [hseq, getPlayer?_some_id b pid s0 hs0])
            have hdj := (hdisj.forall playersDisjRel_symm hs hs0mem hsne).2
            have hp1ne : p ≠ p1 := by
              intro he2
              exact hdj p hp (by rw [hc0, he2]; simp)
            have hp2ne : p ≠ p2 := by
              intro he2
              exact hdj p hp (by rw [hc0, he2]; simp)
            show faceUpAt (notifyWaiters (notifyWaiters
              (setCard (setCard b p1 none) p2 none) p1) p2) p = faceUpAt b p
            rw [faceUpAt_notifyWaiters, faceUpAt_notifyWaiters,
              faceUpAt_setCard_ne _ p2 p none hp2ne,
              faceUpAt_setCard_ne b p1 p none hp1ne]
        refine ⟨_, rfl, ?_, rfl, rfl, ?_⟩
        · exact hinv
        · show getPlayer? (setPlayer (notifyWaiters (notifyWaiters
              (setCard (setCard b p1 none) p2 none) p1) p2) pid _) pid = _
          rw [getPlayer?_setPlayer_self _ pid s0
            (fun s => { s with toCleanUp := [], controlled := [] }) (fun s => rfl)
            (by exact hs0)]
      · obtain ⟨bcl, hcl, hinv, hrows1, hcols1, hgp⟩ := hthreeB
        dsimp only
        rw [if_neg hm, hcl]
        dsimp only
        exact ⟨_, rfl, hinv, hrows1, hcols1, hgp⟩
    | none =>
      obtain ⟨bcl, hcl, hinv, hrows1, hcols1, hgp⟩ := hthreeB
      dsimp only
      rw [hcl]
      dsimp only
      exact ⟨_, rfl, hinv, hrows1, hcols1, hgp⟩
  | none =>
    obtain ⟨bcl, hcl, hinv, hrows1, hcols1, hgp⟩ := hthreeB
    dsimp only
    rw [hcl]
    dsimp only
    exact ⟨_, rfl, hinv, hrows1, hcols1, hgp⟩

theorem checkedReturn_ok_inv (bC b' : BoardState) (h : Inv bC)
    (hok : checkedReturn bC = .ok b') : Inv b' := by
  rw [checkedReturn_eq_ok bC h] at hok
  cases hok
  exact h

/-- Phase A preserves the invariant whenever it completes normally. -/
theorem phaseA_inv (b : BoardState) (position : Position) (pid : String) (s0 : PlayerState)
    (hb : Inv b)
    (hs0 : getPlayer? b pid = some s0)
    (hctl : s0.controlled = [])
    (htc : s0.toCleanUp = [])
    (hrow : position.row < b.rows)
    (hcol : position.col < b.cols)
    (b' : BoardState)
    (hok : phaseA b position pid = .ok b') : Inv b' := by
  unfold phaseA at hok
  cases hcc : getCard b position with
  | none =>
    rw [hcc] at hok
    dsimp only at hok
    cases hok
    exact hb
  | some currentCard =>
    rw [hcc] at hok
    dsimp only at hok
    cases hfu : currentCard.faceUp with
    | true =>
      rw [hfu] at hok
      simp only [Bool.not_true] at hok
      rw [if_neg (by exact Bool.false_ne_true)] at hok
      cases hic : isCardControlled b position with
      | true =>
        rw [hic] at hok
        simp only [Bool.not_true] at hok
        rw [if_neg (by exact Bool.false_ne_true)] at hok
        exact absurd hok (by intro h; exact FlipResult.noConfusion h)
      | false =>
        rw [hic] at hok
        simp only [Bool.not_false] at hok
        rw [if_pos trivial] at hok
        have hinv : Inv (setPlayer b pid
            (fun s => { s with controlled := s.controlled ++ [position] })) := by
          refine inv_after_push b b pid s0 position hb hs0 hctl htc hrow hcol rfl rfl rfl hb.1
            (fun q => rfl) (fun q _ => rfl) ?_ (isCardControlled_false b position hic)
          unfold faceUpAt
          rw [hcc]
          exact hfu
        refine checkedReturn_ok_inv _ _ ?_ hok
        exact hinv
    | false =>
      rw [hfu] at hok
      simp only [Bool.not_false] at hok
      rw [if_pos trivial] at hok
      unfold flipCardUp at hok
      rw [hfu] at hok
      rw [if_neg (by exact Bool.false_ne_true)] at hok
      dsimp only at hok
      have hshape := getCard_some_shape b position currentCard hcc
      have hinv : Inv (setPlayer (setCard b position (some { currentCard with faceUp := true }))
          pid (fun s => { s with controlled := s.controlled ++ [position] })) := by
        refine inv_after_push b _ pid s0 position hb hs0 hctl htc hrow hcol rfl rfl rfl
          (wfGrid_setCard b position _ hb.1)
          (fun q => contentAt_setCard_flip b position currentCard true hcc q)
          (fun q hq => faceUpAt_setCard_ne b position q _ hq) ?_ ?_
        · unfold faceUpAt
          rw [getCard_setCard_self b position _ hshape.1 hshape.2]
        · refine not_controlled_of_faceDown b hb position ?_
          unfold faceUpAt
          rw [hcc]
          exact hfu
      refine checkedReturn_ok_inv _ _ ?_ hok
      exact hinv

/-- Phase B preserves the invariant whenever it completes normally. -/
theorem phaseB_inv (b : BoardState) (position : Position) (pid : String) (s0 : PlayerState)
    (firstPos : Position)
    (hb : Inv b) (hs0 : getPlayer? b pid = some s0)
    (hctl : s0.controlled = [firstPos]) (htc : s0.toCleanUp = [])
    (hrow : position.row < b.rows) (hcol : position.col < b.cols)
    (b' : BoardState) (hok : phaseB b position pid = .ok b') : Inv b' := by
  unfold phaseB at hok
  have hgetSt : getSt b pid = s0 := by
    unfold getSt
    rw [hs0]
    rfl
  rw [hgetSt, hctl] at hok
  dsimp only at hok
  have hs0mem := getPlayer?_mem b pid s0 hs0
  have hfirstmem : firstPos ∈ s0.controlled := by
    rw [hctl]
    exact List.mem_singleton_self _
  have hfirstb := (hb.2.2 s0 hs0mem).2.2.1 firstPos hfirstmem
  obtain ⟨fc, hfc, hfcup⟩ := (faceUpAt_true_iff b firstPos).1 hfirstb.2.2
  rw [hfc] at hok
  dsimp only at hok
  cases hcc : getCard b position with
  | none =>
    rw [hcc] at hok
    dsimp only at hok
    have hinv : Inv (setPlayer b pid (fun s => { s with controlled := [] })) :=
      inv_clear_keep b b pid s0 hb hs0 htc rfl rfl rfl hb.1
        (fun s hs he hp => hp) (fun s hs he p hp => rfl)
    refine checkedReturn_ok_inv _ _ ?_ hok
    exact hinv
  | some card =>
    rw [hcc] at hok
    dsimp only at hok
    cases hic : isCardControlled b position with
    | true =>
      rw [hic] at hok
      rw [if_pos rfl] at hok
      have hinv : Inv (setPlayer b pid (fun s => { s with controlled := [] })) :=
        inv_clear_keep b b pid s0 hb hs0 htc rfl rfl rfl hb.1
          (fun s hs he hp => hp) (fun s hs he p hp => rfl)
      refine checkedReturn_ok_inv _ _ ?_ hok
      exact hinv
    | false =>
      rw [hic] at hok
      rw [if_neg (by exact Bool.false_ne_true)] at hok
      have hfree := isCardControlled_false b position hic
      have hposne : firstPos ≠ position := by
        intro he
        exact hfree s0 hs0mem (he ▸ hfirstmem)
      -- the optional rule 2-C flip-up
      have hflip : ∃ b1, (if !card.faceUp then flipCardUp b card position else Except.ok b)
            = Except.ok b1 ∧
          b1.rows = b.rows ∧ b1.cols = b.cols ∧ b1.playerStates = b.playerStates ∧
          WfGrid b1 ∧
          (∀ q, contentAt b1 q = contentAt b q) ∧
          (∀ q, q ≠ position → faceUpAt b1 q = faceUpAt b q) ∧
          (∀ q, q ≠ position → getCard b1 q = getCard b q) ∧
          faceUpAt b1 position = true ∧
          getCard b1 position = some { content := card.content, faceUp := true } := by
        cases hcf : card.faceUp with
        | true =>
          refine ⟨b, by simp, rfl, rfl, rfl, hb.1, fun q => rfl, fun q _ => rfl,
            fun q _ => rfl, ?_, ?_⟩
          · unfold faceUpAt
            rw [hcc]
            exact hcf
          · rw [hcc, ← hcf]
        | false =>
          have hshape := getCard_some_shape b position card hcc
          refine ⟨setCard b position (some { card with faceUp := true }), ?_, rfl, rfl, rfl,
            wfGrid_setCard b position _ hb.1,
            (fun q => contentAt_setCard_flip b position card true hcc q),
            (fun q hq => faceUpAt_setCard_ne b position q _ hq),
            (fun q hq => getCard_setCard_ne b position q _ hq), ?_, ?_⟩
          · unfold flipCardUp
            rw [hcf]
            simp
          · unfold faceUpAt
            rw [getCard_setCard_self b position _ hshape.1 hshape.2]
          · rw [getCard_setCard_self b position _ hshape.1 hshape.2]
      obtain ⟨b1, hb1, hrows1, hcols1, hps1, hwf1, hcont1, hfne1, hget1, hface1, hcard1⟩ := hflip
      rw [hb1] at hok
      dsimp only at hok
      cases hmm : card.matches fc with
      | true =>
        rw [hmm] at hok
        rw [if_pos rfl] at hok
        have hinv : Inv (setPlayer b1 pid (fun s =>
            { s with controlled := s.controlled ++ [position],
                     toCleanUp := [firstPos, position] })) := by
          refine inv_match_pair b b1 pid s0 firstPos position hb hs0 hctl hrow hcol
            hrows1 hcols1 hps1 hwf1 hcont1 hfne1 hface1 hfree
        refine checkedReturn_ok_inv _ _ ?_ hok
        exact hinv
      | false =>
        rw [hmm] at hok
        rw [if_neg (by exact Bool.false_ne_true)] at hok
        have hinv : Inv (setPlayer b1 pid (fun s =>
            { s with controlled := ([] : List Position),
                     toCleanUp := [firstPos, position] })) := by
          refine inv_clear b b1 pid [firstPos, position] hb hrows1 hcols1 hps1 hwf1 ?_ ?_
            (Or.inr rfl) (Or.inr ?_)
          · intro s hs he hp
            rw [pendingMatched_congr b b1 s hcont1] at hp
            exact hp
          · intro s hs he p hp
            have hpne : p ≠ position := by
              intro he2
              exact hfree s hs (he2 ▸ hp)
            exact hfne1 p hpne
          · unfold pendingMatched
            dsimp only
            rw [show getCard b1 firstPos = some fc by rw [hget1 firstPos hposne]; exact hfc,
              hcard1]
            show fc.matches { content := card.content, faceUp := true } = false
            unfold Card.matches
            unfold Card.matches at hmm
            have hne2 : card.content ≠ fc.content := by
              intro he2
              rw [beq_eq_false_iff_ne] at hmm
              exact hmm he2
            exact beq_eq_false_iff_ne.mpr (fun he2 => hne2 he2.symm)
        refine checkedReturn_ok_inv _ _ ?_ hok
        exact hinv

/-- One completed `flipCard` call (not a wake-up retry) preserves the invariant. -/
theorem flipCard_inv (b : BoardState) (position : Position) (pid : String)
    (hb : Inv b) (b' : BoardState)
    (hok : flipCard b position pid false = .ok b') : Inv b' := by
  unfold flipCard at hok
  by_cases hbound : b.rows ≤ position.row ∨ b.cols ≤ position.col
  · rw [if_pos hbound] at hok
    exact absurd hok (by intro h; exact FlipResult.noConfusion h)
  · rw [if_neg hbound] at hok
    push_neg at hbound
    obtain ⟨hrow, hcol⟩ := hbound
    dsimp only at hok
    rw [getSt_ensurePlayer] at hok
    have hinvb0 : Inv (ensurePlayer b pid) := inv_ensurePlayer b pid hb
    have hgp0 : getPlayer? (ensurePlayer b pid) pid = some (getSt b pid) :=
      getPlayer?_ensurePlayer b pid
    have hmem0 : getSt b pid ∈ (ensurePlayer b pid).playerStates :=
      getPlayer?_mem _ pid _ hgp0
    have hrow0 : position.row < (ensurePlayer b pid).rows := by
      rw [ensurePlayer_rows]; exact hrow
    have hcol0 : position.col < (ensurePlayer b pid).cols := by
      rw [ensurePlayer_cols]; exact hcol
    have hparity := (hinvb0.2.2 _ hmem0).2.2.2.1
    simp only [Bool.not_false, Bool.true_and] at hok
    by_cases hlen2 : (getSt b pid).toCleanUp.length = 2
    · rw [if_pos (Or.inl hlen2)] at hok
      have hbeq : ((getSt b pid).toCleanUp.length == 2) = true := by
        rw [hlen2]
        rfl
      rw [hbeq, if_pos rfl] at hok
      obtain ⟨p1, p2, htc2⟩ := List.length_eq_two.1 hlen2
      rw [htc2] at hok
      dsimp only at hok
      obtain ⟨b1, hrun, hinv1, hrows1, hcols1, hgp1⟩ :=
        runCleanup_spec (ensurePlayer b pid) pid (getSt b pid) p1 p2 hinvb0 hgp0 htc2
      rw [hrun] at hok
      dsimp only at hok
      refine phaseA_inv b1 position pid _ hinv1 hgp1 rfl rfl ?_ ?_ b' hok
      · rw [hrows1]; exact hrow0
      · rw [hcols1]; exact hcol0
    · have hbeq : ((getSt b pid).toCleanUp.length == 2) = false :=
        beq_eq_false_iff_ne.mpr hlen2
      have htc0 : (getSt b pid).toCleanUp = [] := by
        rcases hparity with h0 | h2
        · exact List.length_eq_zero.1 h0
        · exact absurd h2 hlen2
      by_cases hctl0 : (getSt b pid).controlled.length = 0
      · rw [if_pos (Or.inr hctl0)] at hok
        rw [hbeq, if_neg (by exact Bool.false_ne_true)] at hok
        exact phaseA_inv (ensurePlayer b pid) position pid _ hinvb0 hgp0
          (List.length_eq_zero.1 hctl0) htc0 hrow0 hcol0 b' hok
      · rw [if_neg (by
          intro hor
          rcases hor with h2 | h0
          · exact hlen2 h2
          · exact hctl0 h0)] at hok
        by_cases hctl1 : (getSt b pid).controlled.length = 1
        · rw [if_pos hctl1] at hok
          obtain ⟨firstPos, hctlone⟩ := List.length_eq_one.1 hctl1
          exact phaseB_inv (ensurePlayer b pid) position pid _ firstPos hinvb0 hgp0
            hctlone htc0 hrow0 hcol0 b' hok
        · rw [if_neg hctl1] at hok
          exact checkedReturn_ok_inv _ _ hinvb0 hok

/-- `getBoardState` only changes the state by allocating the viewer's slot. -/
theorem getBoardState_state (b : BoardState) (pid : String) :
    (getBoardState b pid).snd = ensurePlayer b pid := rfl

theorem toPosNat?_pos (j : JsNum) (n : Nat) (h : j.toPosNat? = some n) : 0 < n := by
  unfold JsNum.toPosNat? at h
  cases j with
  | val f =>
    dsimp only at h
    split at h
    · rename_i hc
      rw [Bool.and_eq_true, Bool.and_eq_true] at hc
      have hden : 0 < f.den := of_decide_eq_true hc.1.1
      have hnum : 0 < f.num := of_decide_eq_true hc.1.2
      have hdvd : (f.den : Int) ∣ f.num := of_decide_eq_true hc.2
      cases h
      obtain ⟨c, hc2⟩ := hdvd
      have hdne : (f.den : Int) ≠ 0 := by
        intro he
        omega
      rw [hc2, Int.mul_ediv_cancel_left c hdne]
      have hcpos : 0 < c := by
        by_contra hle
        push_neg at hle
        have : (f.den : Int) * c ≤ 0 := by
          have hd0 : 0 ≤ (f.den : Int) := by omega
          exact Int.mul_nonpos_of_nonneg_of_nonpos hd0 hle
        omega
      omega
    · exact Option.noConfusion h
  | nan => exact Option.noConfusion h
  | inf neg => exact Option.noConfusion h

/-- A parsed board satisfies the invariant. -/
theorem parseFromFile_inv (data : String) (b : BoardState)
    (h : parseFromFile data = .ok b) : Inv b := by
  unfold parseFromFile at h
  dsimp only at h
  split at h
  · exact Except.noConfusion h
  · split at h
    · exact Except.noConfusion h
    · split at h
      · exact Except.noConfusion h
      · split at h
        · exact Except.noConfusion h
        · split at h
          · split at h
            · exact Except.noConfusion h
            · cases h
              rename_i rows cols hrows hcols _
              refine ⟨⟨?_, ?_, ?_, ?_⟩, ?_, ?_⟩
              · exact toPosNat?_pos _ rows hrows
              · exact toPosNat?_pos _ cols hcols
              · simp
              · intro row hrowmem
                simp only [List.mem_map] at hrowmem
                obtain ⟨r, hr, rfl⟩ := hrowmem
                simp
              · exact List.Pairwise.nil
              · intro s hs
                exact absurd hs (List.not_mem_nil s)
          · exact Except.noConfusion h

/-! Permanence of removal: no operation writes a card into a removed cell. -/

theorem checkedReturn_state (b : BoardState) : (checkedReturn b).state = b := by
  unfold checkedReturn
  split <;> rfl

theorem contentAt_none_iff (b : BoardState) (p : Position) :
    contentAt b p = none ↔ getCard b p = none := by
  unfold contentAt
  cases getCard b p <;> simp

theorem none_preserved_setCard_none (b : BoardState) (q : Position) (p : Position)
    (h : getCard b p = none) : getCard (setCard b q none) p = none := by
  by_cases hpq : p = q
  · subst hpq
    exact getCard_setCard_none_self b p
  · rw [getCard_setCard_ne b q p none hpq]
    exact h

theorem none_preserved_setCard_some (b : BoardState) (q : Position) (c oc : Card)
    (hq : getCard b q = some c) (p : Position) (h : getCard b p = none) :
    getCard (setCard b q (some oc)) p = none := by
  have hpq : p ≠ q := by
    intro he
    rw [he, hq] at h
    exact Option.noConfusion h
  rw [getCard_setCard_ne b q p _ hpq]
  exact h

theorem getCard_ensurePlayer (b : BoardState) (pid : String) (q : Position) :
    getCard (ensurePlayer b pid) q = getCard b q := by
  unfold getCard
  rw [ensurePlayer_cards]

theorem phaseA_none (b : BoardState) (position : Position) (pid : String) (p : Position)
    (hp : getCard b p = none) : getCard (phaseA b position pid).state p = none := by
  unfold phaseA
  cases hcc : getCard b position with
  | none => exact hp
  | some currentCard =>
    dsimp only
    cases hfu : currentCard.faceUp with
    | false =>
      simp only [Bool.not_false, if_pos trivial]
      unfold flipCardUp
      rw [hfu, if_neg (by exact Bool.false_ne_true)]
      dsimp only
      rw [checkedReturn_state]
      show getCard (setCard b position (some { currentCard with faceUp := true })) p = none
      exact none_preserved_setCard_some b position currentCard _ hcc p hp
    | true =>
      simp only [Bool.not_true] at *
      rw [if_neg (by exact Bool.false_ne_true)]
      split
      · rw [checkedReturn_state]
        exact hp
      · exact hp

theorem phaseB_none (b : BoardState) (position : Position) (pid : String) (p : Position)
    (hp : getCard b p = none) : getCard (phaseB b position pid).state p = none := by
  unfold phaseB
  split
  · rename_i firstPos heq
    cases hfc : getCard b firstPos with
    | none => exact hp
    | some firstCard =>
      dsimp only
      cases hcc : getCard b position with
      | none =>
        dsimp only
        rw [checkedReturn_state]
        exact hp
      | some card =>
        dsimp only
        split
        · rw [checkedReturn_state]
          exact hp
        · have hb1 : ∃ b1, (if !card.faceUp then flipCardUp b card position else Except.ok b)
              = Except.ok b1 ∧ getCard b1 p = none := by
            cases hcf : card.faceUp with
            | true => exact ⟨b, by simp, hp⟩
            | false =>
              refine ⟨setCard b position (some { card with faceUp := true }), ?_, ?_⟩
              · unfold flipCardUp
                rw [hcf]
                simp
              · exact none_preserved_setCard_some b position card _ hcc p hp
          obtain ⟨b1, hb1eq, hb1none⟩ := hb1
          rw [hb1eq]
          dsimp only
          split
          · rw [checkedReturn_state]
            exact hb1none
          · rw [checkedReturn_state]
            exact hb1none
  · exact hp

theorem runCleanup_none (b : BoardState) (pid : String) (p1 p2 : Position)
    (b1 : BoardState) (hok : runCleanup b pid p1 p2 = .ok b1) (p : Position)
    (hp : getCard b p = none) : getCard b1 p = none := by
  unfold runCleanup at hok
  obtain ⟨bcl, hcl, hr1, hc1, hp1a, hwf1, hcont1, hface1⟩ := cleanup_threeB_spec b p1 p2
  have hclnone : getCard bcl p = none := by
    rw [← contentAt_none_iff] at hp ⊢
    rw [hcont1 p]
    exact hp
  cases e1 : getCard b p1 with
  | some c1 =>
    cases e2 : getCard b p2 with
    | some c2 =>
      rw [e1, e2] at hok
      dsimp only at hok
      by_cases hm : c1.matches c2 = true
      · rw [if_pos hm] at hok
        dsimp only at hok
        cases hok
        exact none_preserved_setCard_none _ p2 p (none_preserved_setCard_none b p1 p hp)
      · rw [if_neg hm, hcl] at hok
        dsimp only at hok
        cases hok
        exact hclnone
    | none =>
      rw [e1, e2] at hok
      dsimp only at hok
      rw [hcl] at hok
      dsimp only at hok
      cases hok
      exact hclnone
  | none =>
    rw [e1] at hok
    dsimp only at hok
    rw [hcl] at hok
    dsimp only at hok
    cases hok
    exact hclnone

theorem flipCard_none (b : BoardState) (position : Position) (pid : String) (r : Bool)
    (p : Position) (hp : getCard b p = none) :
    getCard (flipCard b position pid r).state p = none := by
  unfold flipCard
  split
  · exact hp
  · dsimp only
    have hp0 : getCard (ensurePlayer b pid) p = none := by
      rw [getCard_ensurePlayer]
      exact hp
    split
    · split
      · split
        · rename_i p1 p2 heq
          split
          · exact hp0
          · rename_i b1 hrun
            exact phaseA_none b1 position pid p (runCleanup_none _ pid p1 p2 b1 hrun p hp0)
        · exact hp0
      · exact phaseA_none _ position pid p hp0
    · split
      · exact phaseB_none _ position pid p hp0
      · rw [checkedReturn_state]
        exact hp0

theorem applyOp_none (b : BoardState) (op : BoardOp) (p : Position)
    (hp : getCard b p = none) : getCard (applyOp b op) p = none := by
  cases op with
  | flip position pid r => exact flipCard_none b position pid r p hp
  | view pid =>
    rw [show applyOp b (BoardOp.view pid) = ensurePlayer b pid from rfl,
      getCard_ensurePlayer]
    exact hp

theorem runOps_none (b : BoardState) (ops : List BoardOp) (p : Position)
    (hp : getCard b p = none) : getCard (runOps b ops) p = none := by
  induction ops generalizing b with
  | nil => exact hp
  | cons op rest ih => exact ih (applyOp b op) (applyOp_none b op p hp)

/-! Absence of internal errors on in-bounds flips from invariant states. -/

theorem checkedReturn_noerr (b : BoardState) (h : Inv b) :
    (checkedReturn b).isErr = false := by
  rw [checkedReturn_eq_ok b h]
  rfl

theorem phaseA_noerr (b : BoardState) (position : Position) (pid : String) (s0 : PlayerState)
    (hb : Inv b)
    (hs0 : getPlayer? b pid = some s0)
    (hctl : s0.controlled = [])
    (htc : s0.toCleanUp = [])
    (hrow : position.row < b.rows)
    (hcol : position.col < b.cols) :
    (phaseA b position pid).isErr = false := by
  unfold phaseA
  cases hcc : getCard b position with
  | none => rfl
  | some currentCard =>
    dsimp only
    cases hfu : currentCard.faceUp with
    | true =>
      simp only [Bool.not_true]
      rw [if_neg (by exact Bool.false_ne_true)]
      cases hic : isCardControlled b position with
      | true =>
        simp only [Bool.not_true]
        rw [if_neg (by exact Bool.false_ne_true)]
        rfl
      | false =>
        simp only [Bool.not_false]
        rw [if_pos trivial]
        refine checkedReturn_noerr _ ?_
        refine inv_after_push b b pid s0 position hb hs0 hctl htc hrow hcol rfl rfl rfl hb.1
          (fun q => rfl) (fun q _ => rfl) ?_ (isCardControlled_false b position hic)
        unfold faceUpAt
        rw [hcc]
        exact hfu
    | false =>
      simp only [Bool.not_false]
      rw [if_pos trivial]
      unfold flipCardUp
      rw [hfu, if_neg (by exact Bool.false_ne_true)]
      dsimp only
      have hshape := getCard_some_shape b position currentCard hcc
      refine checkedReturn_noerr _ ?_
      refine inv_after_push b _ pid s0 position hb hs0 hctl htc hrow hcol rfl rfl rfl
        (wfGrid_setCard b position _ hb.1)
        (fun q => contentAt_setCard_flip b position currentCard true hcc q)
        (fun q hq => faceUpAt_setCard_ne b position q _ hq) ?_ ?_
      · unfold faceUpAt
        rw [getCard_setCard_self b position _ hshape.1 hshape.2]
      · refine not_controlled_of_faceDown b hb position ?_
        unfold faceUpAt
        rw [hcc]
        exact hfu

theorem phaseB_noerr (b : BoardState) (position : Position) (pid : String) (s0 : PlayerState)
    (firstPos : Position)
    (hb : Inv b) (hs0 : getPlayer? b pid = some s0)
    (hctl : s0.controlled = [firstPos]) (htc : s0.toCleanUp = [])
    (hrow : position.row < b.rows) (hcol : position.col < b.cols) :
    (phaseB b position pid).isErr = false := by
  unfold phaseB
  have hgetSt : getSt b pid = s0 := by
    unfold getSt
    rw [hs0]
    rfl
  rw [hgetSt, hctl]
  dsimp only
  have hs0mem := getPlayer?_mem b pid s0 hs0
  have hfirstmem : firstPos ∈ s0.controlled := by
    rw [hctl]
    exact List.mem_singleton_self _
  have hfirstb := (hb.2.2 s0 hs0mem).2.2.1 firstPos hfirstmem
  obtain ⟨fc, hfc, hfcup⟩ := (faceUpAt_true_iff b firstPos).1 hfirstb.2.2
  rw [hfc]
  dsimp only
  cases hcc : getCard b position with
  | none =>
    dsimp only
    refine checkedReturn_noerr _ ?_
    exact inv_clear_keep b b pid s0 hb hs0 htc rfl rfl rfl hb.1
      (fun s hs he hp => hp) (fun s hs he p hp => rfl)
  | some card =>
    dsimp only
    cases hic : isCardControlled b position with
    | true =>
      rw [if_pos rfl]
      refine checkedReturn_noerr _ ?_
      exact inv_clear_keep b b pid s0 hb hs0 htc rfl rfl rfl hb.1
        (fun s hs he hp => hp) (fun s hs he p hp => rfl)
    | false =>
      rw [if_neg (by exact Bool.false_ne_true)]
      have hfree := isCardControlled_false b position hic
      have hposne : firstPos ≠ position := by
        intro he
        exact hfree s0 hs0mem (he ▸ hfirstmem)
      have hflip : ∃ b1, (if !card.faceUp then flipCardUp b card position else Except.ok b)
            = Except.ok b1 ∧
          b1.rows = b.rows ∧ b1.cols = b.cols ∧ b1.playerStates = b.playerStates ∧
          WfGrid b1 ∧
          (∀ q, contentAt b1 q = contentAt b q) ∧
          (∀ q, q ≠ position → faceUpAt b1 q = faceUpAt b q) ∧
          (∀ q, q ≠ position → getCard b1 q = getCard b q) ∧
          faceUpAt b1 position = true ∧
          getCard b1 position = some { content := card.content, faceUp := true } := by
        cases hcf : card.faceUp with
        | true =>
          refine ⟨b, by simp, rfl, rfl, rfl, hb.1, fun q => rfl, fun q _ => rfl,
            fun q _ => rfl, ?_, ?_⟩
          · unfold faceUpAt
            rw [hcc]
            exact hcf
          · rw [hcc, ← hcf]
        | false =>
          have hshape := getCard_some_shape b position card hcc
          refine ⟨setCard b position (some { card with faceUp := true }), ?_, rfl, rfl, rfl,
            wfGrid_setCard b position _ hb.1,
            (fun q => contentAt_setCard_flip b position card true hcc q),
            (fun q hq => faceUpAt_setCard_ne b position q _ hq),
            (fun q hq => getCard_setCard_ne b position q _ hq), ?_, ?_⟩
          · unfold flipCardUp
            rw [hcf]
            simp
          · unfold faceUpAt
            rw [getCard_setCard_self b position _ hshape.1 hshape.2]
          · rw [getCard_setCard_self b position _ hshape.1 hshape.2]
      obtain ⟨b1, hb1, hrows1, hcols1, hps1, hwf1, hcont1, hfne1, hget1, hface1, hcard1⟩ := hflip
      rw [hb1]
      dsimp only
      cases hmm : card.matches fc with
      | true =>
        rw [if_pos rfl]
        refine checkedReturn_noerr _ ?_
        exact inv_match_pair b b1 pid s0 firstPos position hb hs0 hctl hrow hcol
          hrows1 hcols1 hps1 hwf1 hcont1 hfne1 hface1 hfree
      | false =>
        rw [if_neg (by exact Bool.false_ne_true)]
        refine checkedReturn_noerr _ ?_
        refine inv_clear b b1 pid [firstPos, position] hb hrows1 hcols1 hps1 hwf1 ?_ ?_
          (Or.inr rfl) (Or.inr ?_)
        · intro s hs he hp
          rw [pendingMatched_congr b b1 s hcont1] at hp
          exact hp
        · intro s hs he p hp
          have hpne : p ≠ position := by
            intro he2
            exact hfree s hs (he2 ▸ hp)
          exact hfne1 p hpne
        · unfold pendingMatched
          dsimp only
          rw [show getCard b1 firstPos = some fc by rw [hget1 firstPos hposne]; exact hfc,
            hcard1]
          show fc.matches { content := card.content, faceUp := true } = false
          unfold Card.matches
          unfold Card.matches at hmm
          have hne2 : card.content ≠ fc.content := by
            intro he2
            rw [beq_eq_false_iff_ne] at hmm
            exact hmm he2
          exact beq_eq_false_iff_ne.mpr (fun he2 => hne2 he2.symm)

/-- An in-bounds `flipCard` from an invariant state never throws. -/
theorem flipCard_noerr (b : BoardState) (position : Position) (pid : String)
    (hb : Inv b) (hrow : position.row < b.rows) (hcol : position.col < b.cols) :
    (flipCard b position pid false).isErr = false := by
  unfold flipCard
  rw [if_neg (by
    intro hor
    rcases hor with h1 | h2
    · exact absurd hrow (Nat.not_lt_of_le h1)
    · exact absurd hcol (Nat.not_lt_of_le h2))]
  dsimp only
  rw [getSt_ensurePlayer]
  have hinvb0 : Inv (ensurePlayer b pid) := inv_ensurePlayer b pid hb
  have hgp0 : getPlayer? (ensurePlayer b pid) pid = some (getSt b pid) :=
    getPlayer?_ensurePlayer b pid
  have hmem0 : getSt b pid ∈ (ensurePlayer b pid).playerStates :=
    getPlayer?_mem _ pid _ hgp0
  have hrow0 : position.row < (ensurePlayer b pid).rows := by
    rw [ensurePlayer_rows]; exact hrow
  have hcol0 : position.col < (ensurePlayer b pid).cols := by
    rw [ensurePlayer_cols]; exact hcol
  have hparity := (hinvb0.2.2 _ hmem0).2.2.2.1
  simp only [Bool.not_false, Bool.true_and]
  by_cases hlen2 : (getSt b pid).toCleanUp.length = 2
  · rw [if_pos (Or.inl hlen2)]
    have hbeq : ((getSt b pid).toCleanUp.length == 2) = true := by
      rw [hlen2]
      rfl
    rw [hbeq, if_pos rfl]
    obtain ⟨p1, p2, htc2⟩ := List.length_eq_two.1 hlen2
    rw [htc2]
    dsimp only
    obtain ⟨b1, hrun, hinv1, hrows1, hcols1, hgp1⟩ :=
      runCleanup_spec (ensurePlayer b pid) pid (getSt b pid) p1 p2 hinvb0 hgp0 htc2
    rw [hrun]
    dsimp only
    refine phaseA_noerr b1 position pid _ hinv1 hgp1 rfl rfl ?_ ?_
    · rw [hrows1]; exact hrow0
    · rw [hcols1]; exact hcol0
  · have hbeq : ((getSt b pid).toCleanUp.length == 2) = false :=
      beq_eq_false_iff_ne.mpr hlen2
    have htc0 : (getSt b pid).toCleanUp = [] := by
      rcases hparity with h0 | h2
      · exact List.length_eq_zero.1 h0
      · exact absurd h2 hlen2
    by_cases hctl0 : (getSt b pid).controlled.length = 0
    · rw [if_pos (Or.inr hctl0)]
      rw [hbeq, if_neg (by exact Bool.false_ne_true)]
      exact phaseA_noerr (ensurePlayer b pid) position pid _ hinvb0 hgp0
        (List.length_eq_zero.1 hctl0) htc0 hrow0 hcol0
    · rw [if_neg (by
        intro hor
        rcases hor with h2 | h0
        · exact hlen2 h2
        · exact hctl0 h0)]
      by_cases hctl1 : (getSt b pid).controlled.length = 1
      · rw [if_pos hctl1]
        obtain ⟨firstPos, hctlone⟩ := List.length_eq_one.1 hctl1
        exact phaseB_noerr (ensurePlayer b pid) position pid _ firstPos hinvb0 hgp0
          hctlone htc0 hrow0 hcol0
      · rw [if_neg hctl1]
        exact checkedReturn_noerr _ hinvb0

/-- Any normally completing operation preserves the invariant. -/
theorem okStep_inv (b b' : BoardState) (h : Inv b) (hstep : OkStep b b') : Inv b' := by
  cases hstep with
  | flip position pid _ _ hok => exact flipCard_inv b position pid h b' hok
  | view pid _ =>
    rw [getBoardState_state]
    exact inv_ensurePlayer b pid h

theorem reachableOk_inv (b b' : BoardState) (h : Inv b) (hr : ReachableOk b b') : Inv b' := by
  induction hr with
  | refl => exact h
  | tail h1 h2 ih => exact okStep_inv _ _ ih h2

theorem runOps_append (b : BoardState) (ops1 ops2 : List BoardOp) :
    runOps b (ops1 ++ ops2) = runOps (runOps b ops1) ops2 := by
  unfold runOps
  rw [List.foldl_append]

/-! ### Which phase a `flipCard` call enters -/

theorem getSt_of_some (b : BoardState) (pid : String) (s0 : PlayerState)
    (hs0 : getPlayer? b pid = some s0) : getSt b pid = s0 := by
  unfold getSt
  rw [hs0]
  rfl

/-- A call by an existing player with one controlled card and nothing pending
goes straight to phase B. -/
theorem flipCard_eq_phaseB (b : BoardState) (position : Position) (pid : String)
    (s0 : PlayerState)
    (hs0 : getPlayer? b pid = some s0)
    (hctl1 : s0.controlled.length = 1)
    (htc : s0.toCleanUp = [])
    (hrow : position.row < b.rows) (hcol : position.col < b.cols) :
    flipCard b position pid false = phaseB b position pid := by
  unfold flipCard
  rw [if_neg (by
    intro hor
    rcases hor with h | h
    · omega
    · omega)]
  dsimp only
  rw [ensurePlayer_of_some b pid s0 hs0, getSt_of_some b pid s0 hs0]
  rw [if_neg (by
    intro hor
    rcases hor with h | h
    · rw [htc] at h
      exact absurd h (by decide)
    · rw [hctl1] at h
      exact absurd h (by decide))]
  rw [if_pos hctl1]

/-- A call (not a wake-up retry) by a player whose `toCleanUp` is `[p1, p2]`
runs the cleanup prologue and then phase A against the cleaned state. -/
theorem flipCard_eq_cleanup (b : BoardState) (position p1 p2 : Position) (pid : String)
    (s0 : PlayerState)
    (hs0 : getPlayer? b pid = some s0)
    (htc : s0.toCleanUp = [p1, p2])
    (hrow : position.row < b.rows) (hcol : position.col < b.cols) :
    flipCard b position pid false =
      (match runCleanup b pid p1 p2 with
       | .error m => .err m b
       | .ok b1 => phaseA b1 position pid) := by
  unfold flipCard
  rw [if_neg (by
    intro hor
    rcases hor with h | h
    · omega
    · omega)]
  dsimp only
  rw [ensurePlayer_of_some b pid s0 hs0, getSt_of_some b pid s0 hs0]
  rw [if_pos (Or.inl (by rw [htc]; rfl))]
  simp only [Bool.not_false, Bool.true_and]
  rw [show (s0.toCleanUp.length == 2) = true from by rw [htc]; rfl]
  rw [if_pos rfl]
  rw [htc]

/-- The cleanup prologue on a matched pending pair: rule 3-A removes both
cells and wakes both queues, then the epilogue clears the caller's lists and
wakes both queues again. -/
theorem runCleanup_matched_eq (b : BoardState) (pid : String) (p1 p2 : Position)
    (c1 c2 : Card) (h1 : getCard b p1 = some c1) (h2 : getCard b p2 = some c2)
    (hm : c1.content = c2.content) :
    runCleanup b pid p1 p2 = .ok (notifyWaiters (notifyWaiters (setPlayer
      (notifyWaiters (notifyWaiters (setCard (setCard b p1 none) p2 none) p1) p2)
      pid (fun s => { s with toCleanUp := [], controlled := [] })) p1) p2) := by
  unfold runCleanup
  rw [h1, h2]
  dsimp only
  rw [if_pos (show c1.matches c2 = true from by
    unfold Card.matches
    exact beq_iff_eq.mpr hm)]

/-! The claims. -/

/-- C2: when the caller's `toCleanUp` is `[p1, p2]` with both cells present
and of equal content, an in-bounds `flipCard` that is not a wake-up resumption
first removes both cells, clears the caller's `toCleanUp` and `controlled`
lists, resolves every waiter queued at `p1` and at `p2` without enqueueing
anyone, leaves every other cell untouched, and only then processes the
requested position as a first-card flip (`phaseA`) against the re-read,
post-removal state. -/
theorem claim_cleanup_prologue (b : BoardState) (position p1 p2 : Position) (pid : String)
    (s0 : PlayerState) (c1 c2 : Card)
    (hs0 : getPlayer? b pid = some s0)
    (htc : s0.toCleanUp = [p1, p2])
    (h1 : getCard b p1 = some c1) (h2 : getCard b p2 = some c2)
    (hm : c1.content = c2.content)
    (hrow : position.row < b.rows) (hcol : position.col < b.cols) :
    ∃ b1, flipCard b position pid false = phaseA b1 position pid ∧
      getCard b1 p1 = none ∧
      getCard b1 p2 = none ∧
      (∀ q, q ≠ p1 → q ≠ p2 → getCard b1 q = getCard b q) ∧
      (getSt b1 pid).toCleanUp = [] ∧
      (getSt b1 pid).controlled = [] ∧
      p1 ∉ b1.waitQueues ∧ p2 ∉ b1.waitQueues ∧
      (∀ q, q ∈ b1.waitQueues → q ∈ b.waitQueues) := by
  have hred := flipCard_eq_cleanup b position p1 p2 pid s0 hs0 htc hrow hcol
  rw [runCleanup_matched_eq b pid p1 p2 c1 c2 h1 h2 hm] at hred
  dsimp only at hred
  have hwq : (notifyWaiters (notifyWaiters (setPlayer
      (notifyWaiters (notifyWaiters (setCard (setCard b p1 none) p2 none) p1) p2)
      pid (fun s => { s with toCleanUp := [], controlled := [] })) p1) p2).waitQueues
      = ((((b.waitQueues.filter (fun q => decide (q ≠ p1))).filter
          (fun q => decide (q ≠ p2))).filter (fun q => decide (q ≠ p1))).filter
          (fun q => decide (q ≠ p2))) := rfl
  refine ⟨_, hred, ?_, ?_, ?_, ?_, ?_, ?_, ?_, ?_⟩
  · simp only [getCard_notifyWaiters, getCard_setPlayer]
    exact none_preserved_setCard_none _ p2 p1 (getCard_setCard_none_self b p1)
  · simp only [getCard_notifyWaiters, getCard_setPlayer]
    exact getCard_setCard_none_self _ p2
  · intro q hq1 hq2
    simp only [getCard_notifyWaiters, getCard_setPlayer]
    rw [getCard_setCard_ne _ p2 q none hq2, getCard_setCard_ne b p1 q none hq1]
  · simp only [getSt_notifyWaiters]
    rw [getSt_setPlayer_self _ pid s0
      (fun s => { s with toCleanUp := [], controlled := [] }) (fun s => rfl)
      (by simp only [getPlayer?_notifyWaiters, getPlayer?_setCard]; exact hs0)]
  · simp only [getSt_notifyWaiters]
    rw [getSt_setPlayer_self _ pid s0
      (fun s => { s with toCleanUp := [], controlled := [] }) (fun s => rfl)
      (by simp only [getPlayer?_notifyWaiters, getPlayer?_setCard]; exact hs0)]
  · intro hmem
    rw [hwq] at hmem
    simp only [List.mem_filter, decide_eq_true_eq] at hmem
    exact hmem.1.1.1.2 rfl
  · intro hmem
    rw [hwq] at hmem
    simp only [List.mem_filter, decide_eq_true_eq] at hmem
    exact hmem.2 rfl
  · intro q hmem
    rw [hwq] at hmem
    simp only [List.mem_filter, decide_eq_true_eq] at hmem
    exact hmem.1.1.1.1

theorem claim_cleanup_prologue_witness :
    ∃ b1, flipCard cleanupBoard { row := 0, col := 2 } "p" false
        = phaseA b1 { row := 0, col := 2 } "p" ∧
      getCard b1 { row := 0, col := 0 } = none ∧
      getCard b1 { row := 0, col := 1 } = none ∧
      (∀ q, q ≠ ({ row := 0, col := 0 } : Position) →
        q ≠ ({ row := 0, col := 1 } : Position) → getCard b1 q = getCard cleanupBoard q) ∧
      (getSt b1 "p").toCleanUp = [] ∧
      (getSt b1 "p").controlled = [] ∧
      ({ row := 0, col := 0 } : Position) ∉ b1.waitQueues ∧
      ({ row := 0, col := 1 } : Position) ∉ b1.waitQueues ∧
      (∀ q, q ∈ b1.waitQueues → q ∈ cleanupBoard.waitQueues) :=
  claim_cleanup_prologue cleanupBoard { row := 0, col := 2 } { row := 0, col := 0 }
    { row := 0, col := 1 } "p"
    { playerId := "p",
      controlled := [{ row := 0, col := 0 }, { row := 0, col := 1 }],
      toCleanUp := [{ row := 0, col := 0 }, { row := 0, col := 1 }] }
    { content := "a", faceUp := true } { content := "a", faceUp := true }
    (by decide) (by decide) (by decide) (by decide) (by decide) (by decide) (by decide)

/-- C3: for a player controlling exactly `[firstPos]` with empty `toCleanUp`,
a `flipCard` on an in-bounds, present, uncontrolled target ends — after
flipping the target face-up if it was face-down — in exactly one of two
states: on a content match, `controlled` and `toCleanUp` both become
`[firstPos, position]` and no waiter moves; on a mismatch, `controlled`
empties, `toCleanUp` becomes `[firstPos, position]`, every waiter at
`firstPos` and at the target is resolved, and both cards stay present and
face-up. -/
theorem claim_second_flip (b : BoardState) (position firstPos : Position) (pid : String)
    (s0 : PlayerState) (card fc : Card)
    (hb : Inv b)
    (hs0 : getPlayer? b pid = some s0)
    (hctl : s0.controlled = [firstPos])
    (htc : s0.toCleanUp = [])
    (hrow : position.row < b.rows) (hcol : position.col < b.cols)
    (hcc : getCard b position = some card)
    (hfc : getCard b firstPos = some fc)
    (hic : isCardControlled b position = false) :
    ∃ b', flipCard b position pid false = .ok b' ∧
      getCard b' position = some { content := card.content, faceUp := true } ∧
      getCard b' firstPos = some fc ∧ fc.faceUp = true ∧
      (card.content = fc.content →
        (getSt b' pid).controlled = [firstPos, position] ∧
        (getSt b' pid).toCleanUp = [firstPos, position] ∧
        b'.waitQueues = b.waitQueues) ∧
      (card.content ≠ fc.content →
        (getSt b' pid).controlled = [] ∧
        (getSt b' pid).toCleanUp = [firstPos, position] ∧
        firstPos ∉ b'.waitQueues ∧ position ∉ b'.waitQueues ∧
        (∀ q, q ∈ b'.waitQueues → q ∈ b.waitQueues)) := by
  have hs0mem := getPlayer?_mem b pid s0 hs0
  have hfirstmem : firstPos ∈ s0.controlled := by
    rw [hctl]
    exact List.mem_singleton_self _
  have hfirstb := (hb.2.2 s0 hs0mem).2.2.1 firstPos hfirstmem
  have hfcup : fc.faceUp = true := by
    have h := hfirstb.2.2
    unfold faceUpAt at h
    rw [hfc] at h
    exact h
  have hfree := isCardControlled_false b position hic
  have hposne : firstPos ≠ position := by
    intro he
    exact hfree s0 hs0mem (he ▸ hfirstmem)
  rw [flipCard_eq_phaseB b position pid s0 hs0 (by rw [hctl]; rfl) htc hrow hcol]
  unfold phaseB
  rw [getSt_of_some b pid s0 hs0, hctl]
  dsimp only
  rw [hfc]
  dsimp only
  rw [hcc]
  dsimp only
  rw [hic]
  rw [if_neg (by exact Bool.false_ne_true)]
  have hflip : ∃ b1, (if !card.faceUp then flipCardUp b card position else Except.ok b)
        = Except.ok b1 ∧
      b1.rows = b.rows ∧ b1.cols = b.cols ∧ b1.playerStates = b.playerStates ∧
      b1.waitQueues = b.waitQueues ∧
      WfGrid b1 ∧
      (∀ q, contentAt b1 q = contentAt b q) ∧
      (∀ q, q ≠ position → faceUpAt b1 q = faceUpAt b q) ∧
      (∀ q, q ≠ position → getCard b1 q = getCard b q) ∧
      faceUpAt b1 position = true ∧
      getCard b1 position = some { content := card.content, faceUp := true } := by
    cases hcf : card.faceUp with
    | true =>
      refine ⟨b, by simp, rfl, rfl, rfl, rfl, hb.1, fun q => rfl, fun q _ => rfl,
        fun q _ => rfl, ?_, ?_⟩
      · unfold faceUpAt
        rw [hcc]
        exact hcf
      · rw [hcc, ← hcf]
    | false =>
      have hshape := getCard_some_shape b position card hcc
      refine ⟨setCard b position (some { card with faceUp := true }), ?_, rfl, rfl, rfl, rfl,
        wfGrid_setCard b position _ hb.1,
        (fun q => contentAt_setCard_flip b position card true hcc q),
        (fun q hq => faceUpAt_setCard_ne b position q _ hq),
        (fun q hq => getCard_setCard_ne b position q _ hq), ?_, ?_⟩
      · unfold flipCardUp
        rw [hcf]
        simp
      · unfold faceUpAt
        rw [getCard_setCard_self b position _ hshape.1 hshape.2]
      · rw [getCard_setCard_self b position _ hshape.1 hshape.2]
  obtain ⟨b1, hb1, hrows1, hcols1, hps1, hwq1, hwf1, hcont1, hfne1, hget1, hface1, hcard1⟩ := hflip
  rw [hb1]
  dsimp only
  have hs0b1 : getPlayer? b1 pid = some s0 := by
    rw [getPlayer?_congr b b1 pid hps1]
    exact hs0
  cases hmm : card.matches fc with
  | true =>
    rw [if_pos rfl]
    have hmeq : card.content = fc.content := by
      unfold Card.matches at hmm
      exact beq_iff_eq.mp hmm
    have hinv : Inv (setPlayer b1 pid (fun s =>
        { s with controlled := s.controlled ++ [position],
                 toCleanUp := [firstPos, position] })) :=
      inv_match_pair b b1 pid s0 firstPos position hb hs0 hctl hrow hcol
        hrows1 hcols1 hps1 hwf1 hcont1 hfne1 hface1 hfree
    refine ⟨_, checkedReturn_eq_ok _ hinv, ?_, ?_, hfcup, ?_, ?_⟩
    · rw [getCard_setPlayer]
      exact hcard1
    · rw [getCard_setPlayer, hget1 firstPos hposne]
      exact hfc
    · intro _h
      refine ⟨?_, ?_, ?_⟩
      · rw [getSt_setPlayer_self b1 pid s0 (fun s =>
          { s with controlled := s.controlled ++ [position],
                   toCleanUp := [firstPos, position] }) (fun s => rfl) hs0b1]
        show s0.controlled ++ [position] = [firstPos, position]
        rw [hctl]
        rfl
      · rw [getSt_setPlayer_self b1 pid s0 (fun s =>
          { s with controlled := s.controlled ++ [position],
                   toCleanUp := [firstPos, position] }) (fun s => rfl) hs0b1]
      · rw [setPlayer_waitQueues]
        exact hwq1
    · intro hne
      exact absurd hmeq hne
  | false =>
    rw [if_neg (by exact Bool.false_ne_true)]
    have hmne : card.content ≠ fc.content := by
      unfold Card.matches at hmm
      rw [beq_eq_false_iff_ne] at hmm
      exact hmm
    have hinv : Inv (setPlayer b1 pid (fun s =>
        { s with controlled := ([] : List Position),
                 toCleanUp := [firstPos, position] })) := by
      refine inv_clear b b1 pid [firstPos, position] hb hrows1 hcols1 hps1 hwf1 ?_ ?_
        (Or.inr rfl) (Or.inr ?_)
      · intro s hs he hp
        rw [pendingMatched_congr b b1 s hcont1] at hp
        exact hp
      · intro s hs he p hp
        have hpne : p ≠ position := by
          intro he2
          exact hfree s hs (he2 ▸ hp)
        exact hfne1 p hpne
      · unfold pendingMatched
        dsimp only
        rw [show getCard b1 firstPos = some fc by rw [hget1 firstPos hposne]; exact hfc,
          hcard1]
        show fc.matches { content := card.content, faceUp := true } = false
        unfold Card.matches
        exact beq_eq_false_iff_ne.mpr (fun he2 => hmne he2.symm)
    have hwq : (notifyWaiters (notifyWaiters (setPlayer b1 pid (fun s =>
        { s with controlled := [], toCleanUp := [firstPos, position] }))
        firstPos) position).waitQueues
        = (b1.waitQueues.filter (fun q => decide (q ≠ firstPos))).filter
          (fun q => decide (q ≠ position)) := rfl
    refine ⟨_, checkedReturn_eq_ok _ (by exact hinv), ?_, ?_, hfcup, ?_, ?_⟩
    · simp only [getCard_notifyWaiters, getCard_setPlayer]
      exact hcard1
    · simp only [getCard_notifyWaiters, getCard_setPlayer]
      rw [hget1 firstPos hposne]
      exact hfc
    · intro heq
      exact absurd heq hmne
    · intro _h
      refine ⟨?_, ?_, ?_, ?_, ?_⟩
      · simp only [getSt_notifyWaiters]
        rw [getSt_setPlayer_self b1 pid s0 (fun s =>
          { s with controlled := [], toCleanUp := [firstPos, position] })
          (fun s => rfl) hs0b1]
      · simp only [getSt_notifyWaiters]
        rw [getSt_setPlayer_self b1 pid s0 (fun s =>
          { s with controlled := [], toCleanUp := [firstPos, position] })
          (fun s => rfl) hs0b1]
      · intro hmem
        rw [hwq] at hmem
        simp only [List.mem_filter, decide_eq_true_eq] at hmem
        exact hmem.1.2 rfl
      · intro hmem
        rw [hwq] at hmem
        simp only [List.mem_filter, decide_eq_true_eq] at hmem
        exact hmem.2 rfl
      · intro q hmem
        rw [hwq] at hmem
        simp only [List.mem_filter, decide_eq_true_eq] at hmem
        rw [← hwq1]
        exact hmem.1.1

theorem claim_second_flip_witness :
    ∃ b', flipCard secondFlipBoard { row := 0, col := 1 } "p" false = .ok b' ∧
      getCard b' { row := 0, col := 1 } = some { content := "a", faceUp := true } ∧
      getCard b' { row := 0, col := 0 } = some { content := "a", faceUp := true } ∧
      (true : Bool) = true ∧
      ("a" = "a" →
        (getSt b' "p").controlled = [{ row := 0, col := 0 }, { row := 0, col := 1 }] ∧
        (getSt b' "p").toCleanUp = [{ row := 0, col := 0 }, { row := 0, col := 1 }] ∧
        b'.waitQueues = secondFlipBoard.waitQueues) ∧
      ("a" ≠ "a" →
        (getSt b' "p").controlled = [] ∧
        (getSt b' "p").toCleanUp = [{ row := 0, col := 0 }, { row := 0, col := 1 }] ∧
        ({ row := 0, col := 0 } : Position) ∉ b'.waitQueues ∧
        ({ row := 0, col := 1 } : Position) ∉ b'.waitQueues ∧
        (∀ q, q ∈ b'.waitQueues → q ∈ secondFlipBoard.waitQueues)) :=
  claim_second_flip secondFlipBoard { row := 0, col := 1 } { row := 0, col := 0 } "p"
    { playerId := "p", controlled := [{ row := 0, col := 0 }], toCleanUp := [] }
    { content := "a", faceUp := false } { content := "a", faceUp := true }
    (by decide) (by decide) (by decide) (by decide) (by decide) (by decide)
    (by decide) (by decide) (by decide)

/-- C4: for a player controlling exactly `[firstPos]` with empty `toCleanUp`,
a `flipCard` on an in-bounds target that is removed or controlled by some
player returns normally without suspending: the caller's `controlled` list is
cleared, every waiter queued at `firstPos` is resolved, every cell is left
unchanged, and nothing new — in particular the caller — is enqueued as a
waiter. -/
theorem claim_contended_second_flip (b : BoardState) (position firstPos : Position)
    (pid : String) (s0 : PlayerState)
    (hb : Inv b)
    (hs0 : getPlayer? b pid = some s0)
    (hctl : s0.controlled = [firstPos])
    (htc : s0.toCleanUp = [])
    (hrow : position.row < b.rows) (hcol : position.col < b.cols)
    (htarget : getCard b position = none ∨ isCardControlled b position = true) :
    ∃ b', flipCard b position pid false = .ok b' ∧
      b'.cards = b.cards ∧
      (getSt b' pid).controlled = [] ∧
      (getSt b' pid).toCleanUp = [] ∧
      b'.waitQueues = b.waitQueues.filter (fun q => decide (q ≠ firstPos)) := by
  have hs0mem := getPlayer?_mem b pid s0 hs0
  have hfirstmem : firstPos ∈ s0.controlled := by
    rw [hctl]
    exact List.mem_singleton_self _
  have hfirstb := (hb.2.2 s0 hs0mem).2.2.1 firstPos hfirstmem
  obtain ⟨fc, hfc, hfcup⟩ := (faceUpAt_true_iff b firstPos).1 hfirstb.2.2
  rw [flipCard_eq_phaseB b position pid s0 hs0 (by rw [hctl]; rfl) htc hrow hcol]
  unfold phaseB
  rw [getSt_of_some b pid s0 hs0, hctl]
  dsimp only
  rw [hfc]
  dsimp only
  have hinv : Inv (setPlayer b pid (fun s => { s with controlled := ([] : List Position) })) :=
    inv_clear_keep b b pid s0 hb hs0 htc rfl rfl rfl hb.1
      (fun s hs he hp => hp) (fun s hs he p hp => rfl)
  have hwit : ∃ b', checkedReturn (notifyWaiters (setPlayer b pid (fun s =>
        { s with controlled := ([] : List Position) })) firstPos) = FlipResult.ok b' ∧
      b'.cards = b.cards ∧
      (getSt b' pid).controlled = [] ∧
      (getSt b' pid).toCleanUp = [] ∧
      b'.waitQueues = b.waitQueues.filter (fun q => decide (q ≠ firstPos)) := by
    refine ⟨_, checkedReturn_eq_ok _ (by exact hinv), rfl, ?_, ?_, rfl⟩
    · rw [getSt_notifyWaiters, getSt_setPlayer_self b pid s0
        (fun s => { s with controlled := ([] : List Position) }) (fun s => rfl) hs0]
    · rw [getSt_notifyWaiters, getSt_setPlayer_self b pid s0
        (fun s => { s with controlled := ([] : List Position) }) (fun s => rfl) hs0]
      exact htc
  rcases htarget with hnone | hctrl
  · rw [hnone]
    dsimp only
    exact hwit
  · cases hcc : getCard b position with
    | none =>
      dsimp only
      exact hwit
    | some card =>
      dsimp only
      rw [hctrl, if_pos rfl]
      exact hwit

theorem claim_contended_second_flip_witness :
    ∃ b', flipCard contendedBoard { row := 0, col := 0 } "p" false = .ok b' ∧
      b'.cards = contendedBoard.cards ∧
      (getSt b' "p").controlled = [] ∧
      (getSt b' "p").toCleanUp = [] ∧
      b'.waitQueues = contendedBoard.waitQueues.filter
        (fun q => decide (q ≠ ({ row := 0, col := 0 } : Position))) :=
  claim_contended_second_flip contendedBoard { row := 0, col := 0 } { row := 0, col := 0 } "p"
    { playerId := "p", controlled := [{ row := 0, col := 0 }], toCleanUp := [] }
    (by decide) (by decide) (by decide) (by decide) (by decide) (by decide)
    (Or.inr (by decide))



/-- C1: on every board constructed by `parseFromFile`, after every finite
sequence of `flipCard` and `getBoardState` calls that complete normally, no
position appears in the `controlled` list of two different players; every
controlled position refers to a present, face-up cell; every `controlled` list
has length at most 2 with pairwise-distinct positions; and every `toCleanUp`
list has length 0 or 2. -/
theorem claim_board_invariants (data : String) (b0 b : BoardState)
    (hparse : parseFromFile data = .ok b0) (hreach : ReachableOk b0 b) :
    (∀ p : Position, ∀ s1 ∈ b.playerStates, ∀ s2 ∈ b.playerStates,
        p ∈ s1.controlled → p ∈ s2.controlled → s1 = s2) ∧
    (∀ s ∈ b.playerStates, ∀ p ∈ s.controlled,
        ∃ c, getCard b p = some c ∧ c.faceUp = true) ∧
    (∀ s ∈ b.playerStates, s.controlled.length ≤ 2 ∧ s.controlled.Nodup) ∧
    (∀ s ∈ b.playerStates, s.toCleanUp.length = 0 ∨ s.toCleanUp.length = 2) := by
  have hinv : Inv b := reachableOk_inv b0 b (parseFromFile_inv data b0 hparse) hreach
  refine ⟨?_, ?_, ?_, ?_⟩
  · intro p s1 h1 s2 h2 hp1 hp2
    exact controlled_unique b hinv p s1 h1 s2 h2 hp1 hp2
  · intro s hs p hp
    exact (faceUpAt_true_iff b p).1 ((hinv.2.2 s hs).2.2.1 p hp).2.2
  · intro s hs
    exact ⟨(hinv.2.2 s hs).1, (hinv.2.2 s hs).2.1⟩
  · intro s hs
    exact (hinv.2.2 s hs).2.2.2.1

theorem claim_board_invariants_witness :
    parseFromFile "1x2\na\na" = .ok sampleBoard ∧
    flipCard sampleBoard { row := 0, col := 0 } "p" false = .ok sampleBoardFlipped ∧
    ((∀ p : Position, ∀ s1 ∈ sampleBoardFlipped.playerStates,
        ∀ s2 ∈ sampleBoardFlipped.playerStates,
        p ∈ s1.controlled → p ∈ s2.controlled → s1 = s2) ∧
     (∀ s ∈ sampleBoardFlipped.playerStates, ∀ p ∈ s.controlled,
        ∃ c, getCard sampleBoardFlipped p = some c ∧ c.faceUp = true) ∧
     (∀ s ∈ sampleBoardFlipped.playerStates, s.controlled.length ≤ 2 ∧ s.controlled.Nodup) ∧
     (∀ s ∈ sampleBoardFlipped.playerStates,
        s.toCleanUp.length = 0 ∨ s.toCleanUp.length = 2)) :=
  ⟨by rfl, by decide,
    claim_board_invariants "1x2\na\na" sampleBoard sampleBoardFlipped (by rfl)
      (Relation.ReflTransGen.single
        (OkStep.flip { row := 0, col := 0 } "p" sampleBoard sampleBoardFlipped (by decide)))⟩

/-- C5: removal is permanent — starting from any board `parseFromFile`
constructed, once a cell's content is `none` after some operations, it is
still `none` after any further operations; no operation ever assigns new
content to a removed cell. -/
theorem claim_removal_permanent (data : String) (b0 : BoardState)
    (hparse : parseFromFile data = .ok b0)
    (ops1 ops2 : List BoardOp) (p : Position)
    (hnone : getCard (runOps b0 ops1) p = none) :
    getCard (runOps b0 (ops1 ++ ops2)) p = none := by
  rw [runOps_append]
  exact runOps_none _ ops2 p hnone

theorem claim_removal_permanent_witness :
    parseFromFile "1x2\na\na" = .ok sampleBoard ∧
    getCard (runOps sampleBoard [.flip { row := 0, col := 0 } "p" false,
      .flip { row := 0, col := 1 } "p" false, .flip { row := 0, col := 0 } "p" false])
      { row := 0, col := 0 } = none ∧
    getCard (runOps sampleBoard ([.flip { row := 0, col := 0 } "p" false,
      .flip { row := 0, col := 1 } "p" false, .flip { row := 0, col := 0 } "p" false]
        ++ [.flip { row := 0, col := 1 } "q" false, .view "q"]))
      { row := 0, col := 0 } = none :=
  ⟨by rfl, by decide,
    claim_removal_permanent "1x2\na\na" sampleBoard (by rfl)
      [.flip { row := 0, col := 0 } "p" false, .flip { row := 0, col := 1 } "p" false,
        .flip { row := 0, col := 0 } "p" false]
      [.flip { row := 0, col := 1 } "q" false, .view "q"]
      { row := 0, col := 0 } (by decide)⟩

/-- C7: `flipCard` on an out-of-bounds position throws `"Invalid position"`
and leaves the entire state — the grid, every player's lists (the cleanup
prologue does not run), and all wait queues — exactly as before the call; an
error outcome, distinct from the silent `.ok` returns of rules 1-A and 2-A. -/
theorem claim_out_of_bounds_fatal (b : BoardState) (position : Position) (pid : String)
    (retrying : Bool) (hout : b.rows ≤ position.row ∨ b.cols ≤ position.col) :
    flipCard b position pid retrying = .err "Invalid position" b := by
  unfold flipCard
  rw [if_pos hout]

theorem claim_out_of_bounds_fatal_witness :
    (sampleBoard.rows ≤ 0 ∨ sampleBoard.cols ≤ 5) ∧
    flipCard sampleBoard { row := 0, col := 5 } "p" false
      = .err "Invalid position" sampleBoard :=
  ⟨Or.inr (by decide),
    claim_out_of_bounds_fatal sampleBoard { row := 0, col := 5 } "p" false (Or.inr (by decide))⟩

/-- C10: from any board produced by `parseFromFile` and any sequence of
normally completing `flipCard` and `getBoardState` calls, an in-bounds
`flipCard` never throws: every `checkRep` assertion passes, and the `Bug:`
branches of `flipCardUp` and `flipCardDown` are unreachable. -/
theorem claim_no_internal_errors (data : String) (b0 b : BoardState)
    (hparse : parseFromFile data = .ok b0) (hreach : ReachableOk b0 b)
    (position : Position) (pid : String)
    (hrow : position.row < b.rows) (hcol : position.col < b.cols) :
    (flipCard b position pid false).isErr = false :=
  flipCard_noerr b position pid
    (reachableOk_inv b0 b (parseFromFile_inv data b0 hparse) hreach) hrow hcol

theorem claim_no_internal_errors_witness :
    parseFromFile "1x2\na\na" = .ok sampleBoard ∧
    flipCard sampleBoard { row := 0, col := 0 } "p" false = .ok sampleBoardFlipped ∧
    (0 : Nat) < sampleBoardFlipped.rows ∧ (1 : Nat) < sampleBoardFlipped.cols ∧
    (flipCard sampleBoardFlipped { row := 0, col := 1 } "p" false).isErr = false :=
  ⟨by rfl, by decide, by decide, by decide,
    claim_no_internal_errors "1x2\na\na" sampleBoard sampleBoardFlipped (by rfl)
      (Relation.ReflTransGen.single
        (OkStep.flip { row := 0, col := 0 } "p" sampleBoard sampleBoardFlipped (by decide)))
      { row := 0, col := 1 } "p" (by decide) (by decide)⟩

/-! ### The wire format -/

theorem cellStateLine_congr (b b' : BoardState) (st : PlayerState) (r c : Nat)
    (h : b'.cards = b.cards) : cellStateLine b' st r c = cellStateLine b st r c := by
  unfold cellStateLine
  rw [getCard_congr b b' _ h]

theorem cellStateLine_eq_viewSpecLine (b : BoardState) (st : PlayerState) (r c : Nat) :
    cellStateLine b st r c = viewSpecLine b st.controlled { row := r, col := c } := by
  unfold cellStateLine viewSpecLine
  cases getCard b { row := r, col := c } with
  | none => rfl
  | some card =>
    dsimp only
    cases card.faceUp <;> rfl

/-- Row-major flattening of a nested range map equals a flat-index map. -/
theorem flatten_range_map {α : Type} (R C : Nat) (f : Nat → Nat → α) :
    ((List.range R).map (fun r => (List.range C).map (fun c => f r c))).flatten
      = (List.range (R * C)).map (fun k => f (k / C) (k % C)) := by
  induction R with
  | zero => simp
  | succ R ih =>
    rw [List.range_succ, List.map_append, List.flatten_append, ih]
    rw [Nat.succ_mul, List.range_add, List.map_append]
    congr 1
    rw [List.map_cons, List.map_nil, List.flatten_cons, List.flatten_nil, List.append_nil]
    rw [List.map_map]
    refine List.map_congr_left ?_
    intro x hx
    have hxC : x < C := List.mem_range.1 hx
    have h0C : 0 < C := Nat.lt_of_le_of_lt (Nat.zero_le x) hxC
    show f R x = f ((R * C + x) / C) ((R * C + x) % C)
    have hdiv : (R * C + x) / C = R := by
      rw [Nat.add_comm, Nat.mul_comm R C, Nat.add_mul_div_left x R h0C,
        Nat.div_eq_of_lt hxC, Nat.zero_add]
    have hmod : (R * C + x) % C = x := by
      rw [Nat.add_comm, Nat.add_mul_mod_self_right, Nat.mod_eq_of_lt hxC]
    rw [hdiv, hmod]

/-- C6: for every board and every viewer id — including one never seen before,
which is treated as controlling zero cells and gets its slot allocated lazily —
`getBoardState` returns exactly the spec's wire format: a first line `R"x"C`
followed by one line per cell in row-major order (`none` for a removed cell,
`down` for a present face-down cell, `my content` for a present face-up cell
the viewer controls, `up content` for any other present face-up cell), joined
by single LF characters with no trailing newline. -/
theorem claim_wire_format (b : BoardState) (pid : String) :
    (getBoardState b pid).1 = viewSpec b pid ∧
    (getBoardState b pid).2 = ensurePlayer b pid := by
  constructor
  · unfold getBoardState viewSpec
    dsimp only
    rw [ensurePlayer_rows, ensurePlayer_cols, getSt_ensurePlayer]
    congr 1
    congr 1
    rw [flatten_range_map b.rows b.cols
      (fun r c => cellStateLine (ensurePlayer b pid) (getSt b pid) r c)]
    refine List.map_congr_left ?_
    intro k hk
    rw [cellStateLine_congr b (ensurePlayer b pid) (getSt b pid) (k / b.cols) (k % b.cols)
      (ensurePlayer_cards b pid)]
    exact cellStateLine_eq_viewSpecLine b (getSt b pid) (k / b.cols) (k % b.cols)
  · rfl

/-! ### The bulk transform -/

theorem getCard_transform (b : BoardState) (f : String → String) (p : Position) :
    getCard (transform b f) p
      = (getCard b p).map (fun c => { content := f c.content, faceUp := c.faceUp }) := by
  unfold getCard transform
  dsimp only
  simp only [List.getD_eq_getElem?_getD, List.getElem?_map]
  cases hrow : b.cards[p.row]? with
  | none => simp
  | some row =>
    simp only [Option.map_some', Option.getD_some, List.getElem?_map]
    cases hcell : row[p.col]? with
    | none => simp
    | some cell =>
      cases cell with
      | none => simp
      | some c => simp

/-- C9: after `transform f`, any two cells that are present (before and after —
presence is invariant) and had equal contents before have equal contents
after; every present cell's content `x` is rewritten to `f x` with its face
orientation preserved; and the player states — hence every position's
membership in every `controlled` and `toCleanUp` list — are unchanged. -/
theorem claim_transform_consistent (b : BoardState) (f : String → String)
    (p q : Position) (cp cq : Card)
    (hp : getCard b p = some cp) (hq : getCard b q = some cq) :
    (contentAt b p = contentAt b q →
      contentAt (transform b f) p = contentAt (transform b f) q) ∧
    getCard (transform b f) p = some { content := f cp.content, faceUp := cp.faceUp } ∧
    (transform b f).playerStates = b.playerStates := by
  refine ⟨?_, ?_, rfl⟩
  · intro h
    unfold contentAt at h ⊢
    rw [getCard_transform, getCard_transform, hp, hq]
    rw [hp, hq] at h
    simp only [Option.map_some'] at h ⊢
    rw [Option.some_inj] at h
    rw [h]
  · rw [getCard_transform, hp]
    rfl

theorem claim_transform_consistent_witness :
    (contentAt sampleBoard { row := 0, col := 0 } = contentAt sampleBoard { row := 0, col := 1 } →
      contentAt (transform sampleBoard (fun s => s ++ s)) { row := 0, col := 0 }
        = contentAt (transform sampleBoard (fun s => s ++ s)) { row := 0, col := 1 }) ∧
    getCard (transform sampleBoard (fun s => s ++ s)) { row := 0, col := 0 }
      = some { content := "a" ++ "a", faceUp := false } ∧
    (transform sampleBoard (fun s => s ++ s)).playerStates = sampleBoard.playerStates :=
  claim_transform_consistent sampleBoard (fun s => s ++ s)
    { row := 0, col := 0 } { row := 0, col := 1 }
    { content := "a", faceUp := false } { content := "a", faceUp := false }
    (by decide) (by decide)

/-! ### The board-file success set -/

theorem isDigit_toNat (c : Char) (h : c.isDigit = true) : 48 ≤ c.toNat ∧ c.toNat ≤ 57 := by
  unfold Char.isDigit at h
  rw [Bool.and_eq_true, decide_eq_true_eq, decide_eq_true_eq] at h
  exact ⟨h.1, h.2⟩

theorem jsWhitespace_of_digit (c : Char) (h : c.isDigit = true) : jsWhitespace c = false := by
  obtain ⟨hlo, hhi⟩ := isDigit_toNat c h
  have hne : ∀ (d : Char), d.toNat < 48 ∨ 57 < d.toNat → (c == d) = false := by
    intro d hd
    rw [beq_eq_false_iff_ne]
    intro he
    subst he
    omega
  unfold jsWhitespace
  rw [hne ' ' (by decide), hne '\t' (by decide), hne '\n' (by decide), hne '\r' (by decide),
    hne '\x0b' (by decide), hne '\x0c' (by decide), hne ' ' (by decide),
    hne ' ' (by decide), hne ' ' (by decide), hne ' ' (by decide),
    hne ' ' (by decide), hne ' ' (by decide), hne '　' (by decide),
    hne '﻿' (by decide)]
  have hr : decide (0x2000 ≤ c.toNat) = false := decide_eq_false (by omega)
  rw [hr]
  rfl

theorem takeWhile_eq_self_of_all {α : Type} (p : α → Bool) (l : List α)
    (h : ∀ c ∈ l, p c = true) : l.takeWhile p = l := by
  induction l with
  | nil => rfl
  | cons a l ih =>
    rw [List.takeWhile_cons, h a (List.mem_cons_self a l), if_pos rfl,
      ih (fun c hc => h c (List.mem_cons_of_mem a hc))]

theorem dropWhile_eq_nil_of_all {α : Type} (p : α → Bool) (l : List α)
    (h : ∀ c ∈ l, p c = true) : l.dropWhile p = [] := by
  induction l with
  | nil => rfl
  | cons a l ih =>
    rw [List.dropWhile_cons, h a (List.mem_cons_self a l), if_pos rfl,
      ih (fun c hc => h c (List.mem_cons_of_mem a hc))]

theorem dropWhile_eq_self_of_none {α : Type} (p : α → Bool) (l : List α)
    (h : ∀ c ∈ l, p c = false) : l.dropWhile p = l := by
  cases l with
  | nil => rfl
  | cons a l =>
    rw [List.dropWhile_cons, h a (List.mem_cons_self a l),
      if_neg (by exact Bool.false_ne_true)]

theorem jsTrimList_of_no_ws (l : List Char) (h : ∀ c ∈ l, jsWhitespace c = false) :
    jsTrimList l = l := by
  unfold jsTrimList
  rw [dropWhile_eq_self_of_none _ _ h,
    dropWhile_eq_self_of_none _ _ (fun c hc => h c (List.mem_reverse.1 hc)),
    List.reverse_reverse]

theorem parseUnsignedDec_digits (l : List Char) (hne : l ≠ [])
    (hd : ∀ c ∈ l, c.isDigit = true) :
    parseUnsignedDec l = some { num := (natOfDigits l : Int), den := 1 } := by
  unfold parseUnsignedDec
  dsimp only
  rw [dropWhile_eq_nil_of_all _ _ hd, takeWhile_eq_self_of_all _ _ hd]
  dsimp only
  rw [if_neg (by
    cases l with
    | nil => exact absurd rfl hne
    | cons a l => exact Bool.false_ne_true)]

theorem jsUnsigned_digits (l : List Char) (hne : l ≠ [])
    (hd : ∀ c ∈ l, c.isDigit = true) :
    jsUnsigned l = .val { num := (natOfDigits l : Int), den := 1 } := by
  unfold jsUnsigned
  rw [if_neg (by
    intro he
    have hI : ('I' : Char).isDigit = true := hd 'I' (by rw [he]; decide)
    exact absurd hI (by decide))]
  rw [parseUnsignedDec_digits l hne hd]

theorem jsNumberList_digits (l : List Char) (hne : l ≠ [])
    (hd : ∀ c ∈ l, c.isDigit = true) :
    jsNumberList l = .val { num := (natOfDigits l : Int), den := 1 } := by
  have hnws : ∀ c ∈ l, jsWhitespace c = false :=
    fun c hc => jsWhitespace_of_digit c (hd c hc)
  have hbne : ∀ c ∈ l, ∀ (d : Char), d.toNat < 48 ∨ 57 < d.toNat → (c == d) = false := by
    intro c hc d hdd
    obtain ⟨hlo, hhi⟩ := isDigit_toNat c (hd c hc)
    rw [beq_eq_false_iff_ne]
    intro he
    subst he
    omega
  unfold jsNumberList
  rw [jsTrimList_of_no_ws l hnws]
  cases l with
  | nil => exact absurd rfl hne
  | cons c r =>
    have hcmem : c ∈ c :: r := List.mem_cons_self c r
    dsimp only
    rw [hbne c hcmem '+' (by decide), if_neg (by exact Bool.false_ne_true),
      hbne c hcmem '-' (by decide), if_neg (by exact Bool.false_ne_true)]
    have hjs : jsUnsigned (c :: r) = .val { num := (natOfDigits (c :: r) : Int), den := 1 } :=
      jsUnsigned_digits (c :: r) hne hd
    cases hzero : (c == '0') with
    | false =>
      rw [if_neg (by exact Bool.false_ne_true)]
      exact hjs
    | true =>
      rw [if_pos rfl]
      cases r with
      | nil => exact hjs
      | cons c2 r2 =>
        have hc2mem : c2 ∈ c :: c2 :: r2 := by simp
        dsimp only
        rw [hbne c2 hc2mem 'x' (by decide), hbne c2 hc2mem 'X' (by decide),
          Bool.or_self, if_neg (by exact Bool.false_ne_true),
          hbne c2 hc2mem 'o' (by decide), hbne c2 hc2mem 'O' (by decide),
          Bool.or_self, if_neg (by exact Bool.false_ne_true),
          hbne c2 hc2mem 'b' (by decide), hbne c2 hc2mem 'B' (by decide),
          Bool.or_self, if_neg (by exact Bool.false_ne_true)]
        exact hjs

theorem toPosNat?_int (n : Nat) (h : 0 < n) :
    JsNum.toPosNat? (.val { num := (n : Int), den := 1 }) = some n := by
  unfold JsNum.toPosNat?
  dsimp only
  rw [if_pos (by
    simp only [Bool.and_eq_true, decide_eq_true_eq]
    refine ⟨⟨by decide, by omega⟩, ?_⟩
    exact ⟨(n : Int), by push_cast; ring⟩)]
  rw [Option.some_inj]
  omega

/-- C8 (amended direction): every input in the success set the spec claims —
after per-line trimming and blank-line dropping, a first line `R"x"C` with
digit tokens of positive value, followed by exactly `R · C` non-empty,
whitespace-free lines — is accepted by `parseFromFile`, producing the stated
dimensions and exactly those cards, face-down, in row-major order. -/
theorem claim_parse_success_set (data : String) (dim : String) (cardLines : List String)
    (A B : List Char)
    (hproc : ((splitOnChar '\n' data.data).map (fun l => String.mk (jsTrimList l))).filter
        (fun l => decide (0 < l.length)) = dim :: cardLines)
    (hdim : splitOnChar 'x' dim.data = [A, B])
    (hA : isDigitToken A = true) (hB : isDigitToken B = true)
    (hApos : 0 < natOfDigits A) (hBpos : 0 < natOfDigits B)
    (hcount : cardLines.length = natOfDigits A * natOfDigits B)
    (hcards : ∀ l ∈ cardLines, l ≠ "" ∧ l.data.all (fun ch => !jsWhitespace ch) = true) :
    parseFromFile data = .ok
      { rows := natOfDigits A, cols := natOfDigits B,
        cards := (List.range (natOfDigits A)).map (fun r =>
          (List.range (natOfDigits B)).map (fun c =>
            some { content := cardLines.getD (r * natOfDigits B + c) "",
                   faceUp := false })),
        playerStates := [], waitQueues := [] } := by
  have hAparts : A ≠ [] ∧ ∀ c ∈ A, c.isDigit = true := by
    unfold isDigitToken at hA
    rw [Bool.and_eq_true] at hA
    refine ⟨?_, List.all_eq_true.1 hA.2⟩
    intro he
    rw [he] at hA
    exact absurd hA.1 (by decide)
  have hBparts : B ≠ [] ∧ ∀ c ∈ B, c.isDigit = true := by
    unfold isDigitToken at hB
    rw [Bool.and_eq_true] at hB
    refine ⟨?_, List.all_eq_true.1 hB.2⟩
    intro he
    rw [he] at hB
    exact absurd hB.1 (by decide)
  have hlen1 : 0 < cardLines.length := by
    rw [hcount]
    exact Nat.mul_pos hApos hBpos
  unfold parseFromFile
  dsimp only
  rw [hproc]
  rw [if_neg (by simp only [List.length_cons]; omega)]
  rw [show (dim :: cardLines).getD 0 "" = dim from rfl]
  rw [hdim]
  rw [if_neg (by simp)]
  rw [show ([A, B].getD 0 []) = A from rfl, show ([A, B].getD 1 []) = B from rfl]
  rw [jsNumberList_digits A hAparts.1 hAparts.2, jsNumberList_digits B hBparts.1 hBparts.2]
  have hcond : (JsNum.isNaN (.val { num := (natOfDigits A : Int), den := 1 })
      || JsNum.isNaN (.val { num := (natOfDigits B : Int), den := 1 })
      || JsNum.nonPos (.val { num := (natOfDigits A : Int), den := 1 })
      || JsNum.nonPos (.val { num := (natOfDigits B : Int), den := 1 })) = false := by
    show (false || false || decide ((natOfDigits A : Int) ≤ 0)
      || decide ((natOfDigits B : Int) ≤ 0)) = false
    rw [decide_eq_false (show ¬((natOfDigits A : Int) ≤ 0) by omega),
      decide_eq_false (show ¬((natOfDigits B : Int) ≤ 0) by omega)]
    rfl
  rw [hcond, if_neg (by exact Bool.false_ne_true)]
  rw [show (dim :: cardLines).drop 1 = cardLines from rfl]
  have hmul : jsMulEqNat (.val { num := (natOfDigits A : Int), den := 1 })
      (.val { num := (natOfDigits B : Int), den := 1 }) cardLines.length = true := by
    unfold jsMulEqNat
    rw [decide_eq_true_eq, hcount]
    push_cast
    ring
  rw [hmul, Bool.not_true, if_neg (by exact Bool.false_ne_true)]
  rw [toPosNat?_int (natOfDigits A) hApos, toPosNat?_int (natOfDigits B) hBpos]
  dsimp only
  rw [if_neg (by
    intro hany
    rw [List.any_eq_true] at hany
    obtain ⟨l, hl, hws⟩ := hany
    rw [List.any_eq_true] at hws
    obtain ⟨ch, hch, hwch⟩ := hws
    have := List.all_eq_true.1 (hcards l hl).2 ch hch
    rw [hwch] at this
    exact absurd this (by decide))]
  have hgrid : ∀ r ∈ List.range (natOfDigits A),
      (List.range (natOfDigits B)).map (fun c =>
        if cardLines.getD (r * natOfDigits B + c) "" = "" then none
        else some { content := cardLines.getD (r * natOfDigits B + c) "",
                    faceUp := false })
      = (List.range (natOfDigits B)).map (fun c =>
        some ({ content := cardLines.getD (r * natOfDigits B + c) "",
                faceUp := false } : Card)) := by
    intro r hr
    refine List.map_congr_left ?_
    intro c hc
    have hrA : r < natOfDigits A := List.mem_range.1 hr
    have hcB : c < natOfDigits B := List.mem_range.1 hc
    have hidx : r * natOfDigits B + c < cardLines.length := by
      rw [hcount]
      have h1 : r * natOfDigits B + c < (r + 1) * natOfDigits B := by
        rw [Nat.succ_mul]
        omega
      have h2 : (r + 1) * natOfDigits B ≤ natOfDigits A * natOfDigits B :=
        Nat.mul_le_mul_right _ (Nat.succ_le_of_lt hrA)
      omega
    have hcell : cardLines.getD (r * natOfDigits B + c) "" ≠ "" := by
      rw [List.getD_eq_getElem cardLines "" hidx]
      exact (hcards _ (List.getElem_mem hidx)).1
    rw [if_neg hcell]
  rw [List.map_congr_left hgrid]

/-- C8 counterexample: the file `"2 x 2\na\nb\na\nb"` lies outside the claimed
success set — its dimension line is not `R"x"C` for bare decimal-digit tokens
— yet `parseFromFile` accepts it, because the source converts each piece of
the dimension line with JavaScript `Number()`, which tolerates surrounding
whitespace. The success set of the code is therefore strictly larger than the
set the claim states, so `parseFromFile` does not succeed *exactly* on those
inputs. -/
theorem claim_parse_success_set_counterexample :
    specParseGood "2 x 2\na\nb\na\nb" = false ∧
    parseFromFile "2 x 2\na\nb\na\nb" = .ok
      { rows := 2, cols := 2,
        cards := [[some { content := "a", faceUp := false },
                   some { content := "b", faceUp := false }],
                  [some { content := "a", faceUp := false },
                   some { content := "b", faceUp := false }]],
        playerStates := [], waitQueues := [] } := by
  constructor
  · rfl
  · rfl

theorem claim_parse_success_set_witness :
    parseFromFile "2x2\na\nb\nc\nd" = .ok
      { rows := 2, cols := 2,
        cards := [[some { content := "a", faceUp := false },
                   some { content := "b", faceUp := false }],
                  [some { content := "c", faceUp := false },
                   some { content := "d", faceUp := false }]],
        playerStates := [], waitQueues := [] } :=
  claim_parse_success_set "2x2\na\nb\nc\nd" "2x2" ["a", "b", "c", "d"]
    ['2'] ['2'] (by rfl) (by rfl) (by decide) (by decide) (by decide) (by decide)
    (by decide) (by decide)

end MemoryScramble
